import Mathlib

/-!
Verification development for the Auto-Claude provider-agnostic engine layer.

The definitions in this file are shallow embeddings of the Python sources:
`core/tools/builtin.py` (the built-in tool set) and `core/engine.py`
(the Gemini chat-API adapter, the OpenAI delta-API adapter, and the
custom-CLI subprocess adapter).  Pure Python functions become Lean
functions; the filesystem, the regex engine, the subprocess runner and
the security gate — all of which live outside the embedded sources —
are passed in explicitly as oracle parameters; Python exceptions become
`Except` values.
-/

deriving instance DecidableEq for Except

/-! ## Python-level helpers -/

/-- Python truthiness of an optional string: `None` and `""` are falsy. -/
def pyTruthy (o : Option String) : Bool :=
  match o with
  | none => false
  | some s => s ≠ ""

/-- Python `a or b` on optional strings: keeps `a` when truthy, else `b`. -/
def pyOrD (o : Option String) (d : String) : String :=
  match o with
  | none => d
  | some s => if s ≠ "" then s else d

/-- Python whitespace (the characters stripped by `str.strip`). -/
def isPyWs (c : Char) : Bool :=
  c = ' ' ∨ c = '\t' ∨ c = '\n' ∨ c = '\r' ∨ c = '\x0b' ∨ c = '\x0c'

/-- Python `str.strip()`: remove leading and trailing whitespace. -/
def pyStrip (s : String) : String :=
  ⟨((s.data.dropWhile isPyWs).reverse.dropWhile isPyWs).reverse⟩

/-- Python substring containment `needle in hay` on character lists. -/
def listContains : List Char → List Char → Bool
  | _, [] => false
  | pat, l@(_ :: ls) => pat.isPrefixOf l || listContains pat ls

/-- Python substring containment `needle in hay`; `"" in s` is `True`. -/
def strIn (needle hay : String) : Bool :=
  needle.data.isEmpty || listContains needle.data hay.data

/-- Python list slicing `l[a:b]` with negative-index normalisation. -/
def pySlice {α : Type} (l : List α) (a b : Int) : List α :=
  let n : Int := l.length
  let norm : Int → Nat := fun i => if i < 0 then (max (n + i) 0).toNat else (min i n).toNat
  (l.drop (norm a)).take (norm b - norm a)

/-- Python `str.splitlines`-as-`readlines`: split after each newline,
keeping the terminator on each line (text-mode `readlines`). -/
def splitKeepNlAux (cur : List Char) : List Char → List (List Char)
  | [] => if cur.isEmpty then [] else [cur.reverse]
  | c :: cs =>
    if c = '\n' then (c :: cur).reverse :: splitKeepNlAux [] cs
    else splitKeepNlAux (c :: cur) cs

/-- Python `f.readlines()` on a file content string. -/
def pyReadlines (s : String) : List String :=
  (splitKeepNlAux [] s.data).map (fun l => ⟨l⟩)

/-- Python `str.replace` on character lists, for a nonempty pattern:
replace every leftmost non-overlapping occurrence.  The fuel argument
makes the recursion structural; fuel equal to the input length always
suffices since every step consumes at least one character. -/
def pyReplaceAux (pat rep : List Char) : Nat → List Char → List Char
  | _, [] => []
  | 0, s => s
  | fuel + 1, c :: cs =>
    if pat.isPrefixOf (c :: cs) ∧ pat.length ≠ 0 then
      rep ++ pyReplaceAux pat rep fuel (cs.drop (pat.length - 1))
    else
      c :: pyReplaceAux pat rep fuel cs

/-- Python `content.replace(target, replacement)`: all occurrences; an
empty target interleaves the replacement around every character. -/
def pyReplace (s pat rep : String) : String :=
  if pat.data.isEmpty then
    ⟨rep.data ++ s.data.flatMap (fun c => c :: rep.data)⟩
  else
    ⟨pyReplaceAux pat.data rep.data s.data.length s.data⟩

/-! ## Filesystem model

The filesystem visible to the tool functions: an association list from
paths to file contents.  `Path.exists` is lookup success; writes always
succeed (OS-level write failures are caught by the tools' `except`
blocks and are not representable here). -/

/-- Look up a file's content by exact path. -/
def fsRead (fs : List (String × String)) (p : String) : Option String :=
  (fs.find? (fun e => e.1 = p)).map (·.2)

/-- Create or overwrite a file. -/
def fsWrite (fs : List (String × String)) (p c : String) : List (String × String) :=
  (p, c) :: fs.eraseP (fun e => e.1 = p)

/-! ## Built-in tool set (`core/tools/builtin.py`) -/

/-- Embeds `read_file(file_path, start_line, end_line)`: whole file or a
1-indexed inclusive line range; `start`/`end` use Python truthiness
(`0` behaves like `None`). -/
def read_file (fs : List (String × String)) (fp : String)
    (startLine endLine : Option Int) : String :=
  match fsRead fs fp with
  | none => "Error: File not found: " ++ fp
  | some content =>
    let lines := pyReadlines content
    if startLine ≠ none ∨ endLine ≠ none then
      let start : Int := match startLine with
        | some n => if n ≠ 0 then n - 1 else 0
        | none => 0
      let stop : Int := match endLine with
        | some n => if n ≠ 0 then n else (lines.length : Int)
        | none => (lines.length : Int)
      String.join (pySlice lines start stop)
    else
      String.join lines

/-- Embeds `write_file(file_path, content)`: create or overwrite, returning the
success confirmation and the new filesystem. -/
def write_file (fs : List (String × String)) (fp content : String) :
    String × List (String × String) :=
  ("Successfully wrote to " ++ fp, fsWrite fs fp content)

/-- Embeds `edit_file(file_path, target_content, replacement_content)`: exact
substring find-and-replace via `str.replace` (all occurrences). -/
def edit_file (fs : List (String × String)) (fp tgt rep : String) :
    String × List (String × String) :=
  match fsRead fs fp with
  | none => ("Error: File not found: " ++ fp, fs)
  | some content =>
    if ¬ strIn tgt content then
      ("Error: Target content not found in " ++ fp, fs)
    else
      ("Successfully edited " ++ fp, fsWrite fs fp (pyReplace content tgt rep))

/-- A directory entry produced by `Path.rglob`: its path relative to the
root, whether it is a regular file, and — when it can be opened and
decoded as UTF-8 — its lines (as yielded by iterating the open file). -/
structure REntry where
  relPath : String
  isFile : Bool
  content : Option (List String)
deriving Repr, DecidableEq

/-- A Python exception escaping a tool function. -/
inductive PyErr where
  | reError (msg : String)
  | fsError (msg : String)
deriving Repr, DecidableEq

/-- Embeds `glob_files(pattern, root_dir)`: `root.rglob(pattern)` filtered to
files, as root-relative paths.  `rglob` itself (outside the embedded
sources) is an oracle; the body wraps it in no handler, so any exception
it raises propagates. -/
def glob_files (rglob : String → String → Except PyErr (List REntry))
    (pattern rootDir : String) : Except PyErr (List String) :=
  (rglob pattern rootDir).map (fun es => (es.filter (·.isFile)).map (·.relPath))

/-- Enumerate a list starting from index `n` (Python `enumerate(f, 1)`). -/
def enumFrom {α : Type} (n : Nat) : List α → List (Nat × α)
  | [] => []
  | a :: as => (n, a) :: enumFrom (n + 1) as

/-- Embeds `grep_files(query, pattern, root_dir)`: compile `query` case-
insensitively (the compiled matcher is an oracle for Python `re`; a
compile failure is raised, uncaught), then scan every file matching
`pattern` under `root_dir` line by line; unreadable or undecodable files
are skipped; matches are `"file:line: text"`. -/
def grep_files (reCompile : String → Except PyErr (String → Bool))
    (rglob : String → String → Except PyErr (List REntry))
    (query pattern rootDir : String) : Except PyErr String :=
  match reCompile query with
  | .error e => .error e
  | .ok rgx =>
    match rglob pattern rootDir with
    | .error e => .error e
    | .ok es =>
      let results := es.flatMap (fun en =>
        if en.isFile then
          match en.content with
          | none => []
          | some lines =>
            (enumFrom 1 lines).filterMap (fun il =>
              if rgx il.2 then
                some (en.relPath ++ ":" ++ toString il.1 ++ ": " ++ pyStrip il.2)
              else none)
        else [])
      .ok (if results.isEmpty then "No matches found." else String.intercalate "\n" results)

/-- Outcome of `subprocess.run` for a shell command (an oracle for the
subprocess layer): normal completion with captured streams, a
`TimeoutExpired`, or some other exception. -/
inductive BashOutcome where
  | completed (stdout stderr : String)
  | timeout
  | exn (msg : String)
deriving Repr, DecidableEq

/-- Embeds `execute_bash(command, cwd)`: consult the security gate first (an
oracle `validate(command, project_dir) -> (allowed, reason)`); if denied,
return the blocked message without running; otherwise run and convert
every failure into an error string. -/
def execute_bash (validate : String → String → Bool × String)
    (runner : String → Option String → BashOutcome)
    (procCwd : String) (command : String) (cwd : Option String) : String :=
  let projectDir := pyOrD cwd procCwd
  match validate command projectDir with
  | (false, reason) => "Error: Command blocked by security policy: " ++ reason
  | (true, _) =>
    match runner command cwd with
    | .completed out err =>
      let output := if err ≠ "" then out ++ "\nStderr:\n" ++ err else out
      if output ≠ "" then output else "[Command executed with no output]"
    | .timeout => "Error: Command timed out after 300 seconds."
    | .exn m => "Error executing command: " ++ m

/-! ## Engine configuration (`AgentOptions` in `core/engine.py`) -/

/-- Embeds `AgentOptions`: the configuration handed to every adapter.  Only the
fields the embedded code paths consult are carried. -/
structure AgentOptions where
  model : String
  system_prompt : String
  spec_dir : Option String := none
  allowed_tools : List String := []
  max_turns : Nat := 1000
  cwd : Option String := none
  env : Option (List (String × String)) := none
deriving Repr, DecidableEq

/-- Lookup in an environment mapping (`dict.get`). -/
def envGet (env : List (String × String)) (k : String) : Option String :=
  (env.find? (fun e => e.1 = k)).map (·.2)

/-! ## Tool schema registration (C2)

`GeminiAgentEngine._initialize_model` and
`OpenAIAgentEngine._get_openai_tools` translate `allowed_tools` into
per-backend JSON-schema tool declarations. -/

/-- A registered tool declaration: name, description, the schema's
parameter properties (name, JSON type) and its required-parameter list. -/
structure ToolSchema where
  name : String
  description : String
  properties : List (String × String)
  required : List String
deriving Repr, DecidableEq

/-- The declarations one entry of `allowed_tools` contributes in
`GeminiAgentEngine._initialize_model` (the `if`/`elif` chain of
`get_agent_allowed_tools`); an unrecognised name contributes nothing. -/
def geminiToolBlock (toolName : String) : List ToolSchema :=
  (if toolName = "Read" then
      [{ name := "Read", description := "Read a file or a specific range of lines.",
         properties := [("file_path", "string"), ("start_line", "integer"), ("end_line", "integer")],
         required := ["file_path"] }]
    else if toolName = "Write" then
      [{ name := "Write", description := "Create or overwrite a file.",
         properties := [("file_path", "string"), ("content", "string")],
         required := ["file_path", "content"] }]
    else if toolName = "Edit" then
      [{ name := "Edit", description := "Edit a file by replacing target_content with replacement_content.",
         properties := [("file_path", "string"), ("target_content", "string"), ("replacement_content", "string")],
         required := ["file_path", "target_content", "replacement_content"] }]
    else if toolName = "Glob" then
      [{ name := "Glob", description := "List files matching a pattern.",
         properties := [("pattern", "string")],
         required := ["pattern"] }]
    else if toolName = "Grep" then
      [{ name := "Grep", description := "Search for a string in files.",
         properties := [("query", "string"), ("pattern", "string")],
         required := ["query"] }]
    else if toolName = "Bash" then
      [{ name := "Bash", description := "Execute a bash command.",
         properties := [("command", "string")],
         required := ["command"] }]
    else [])

/-- The schemas `GeminiAgentEngine._initialize_model` registers, one per
recognised entry of `allowed_tools`, in iteration order. -/
def geminiToolDecls (allowedTools : List String) : List ToolSchema :=
  allowedTools.flatMap geminiToolBlock

/-- The declarations one entry of `allowed_tools` contributes in
`OpenAIAgentEngine._get_openai_tools` (each is wrapped as
`{type: "function", function: ...}` on the wire; the function payload is
what is modelled). -/
def openaiToolBlock (name : String) : List ToolSchema :=
  (if name = "Read" then
      [{ name := "Read", description := "Read file content",
         properties := [("file_path", "string"), ("start_line", "integer"), ("end_line", "integer")],
         required := ["file_path"] }]
    else if name = "Write" then
      [{ name := "Write", description := "Create/Overwrite file",
         properties := [("file_path", "string"), ("content", "string")],
         required := ["file_path", "content"] }]
    else if name = "Edit" then
      [{ name := "Edit", description := "Edit file content",
         properties := [("file_path", "string"), ("target_content", "string"), ("replacement_content", "string")],
         required := ["file_path", "target_content", "replacement_content"] }]
    else if name = "Glob" then
      [{ name := "Glob", description := "List files",
         properties := [("pattern", "string")],
         required := ["pattern"] }]
    else if name = "Grep" then
      [{ name := "Grep", description := "Search in files",
         properties := [("query", "string"), ("pattern", "string")],
         required := ["query"] }]
    else if name = "Bash" then
      [{ name := "Bash", description := "Run bash command",
         properties := [("command", "string")],
         required := ["command"] }]
    else [])

/-- The schemas `OpenAIAgentEngine._get_openai_tools` builds, one per
recognised entry of `allowed_tools`, in iteration order. -/
def openaiToolDecls (allowedTools : List String) : List ToolSchema :=
  allowedTools.flatMap openaiToolBlock

/-- The six supported tool names. -/
def supportedTools : List String := ["Read", "Write", "Edit", "Glob", "Grep", "Bash"]

/-- Modelled from the spec (§6), for comparison with the registered
schemas: the fixed parameter-name contract of each tool; each parameter
is paired with whether it is required.  `Read{file_path, start_line?,
end_line?}`, `Write{file_path, content}`, `Edit{file_path,
target_content, replacement_content}`, `Glob{pattern, root_dir?}`,
`Grep{query, pattern?, root_dir?}`, `Bash{command}`. -/
def specToolParams (name : String) : Option (List (String × Bool)) :=
  if name = "Read" then some [("file_path", true), ("start_line", false), ("end_line", false)]
  else if name = "Write" then some [("file_path", true), ("content", true)]
  else if name = "Edit" then some [("file_path", true), ("target_content", true), ("replacement_content", true)]
  else if name = "Glob" then some [("pattern", true), ("root_dir", false)]
  else if name = "Grep" then some [("query", true), ("pattern", false), ("root_dir", false)]
  else if name = "Bash" then some [("command", true)]
  else none

/-- The parameter sets the adapters actually register, as the amended
contract: identical to `specToolParams` except that `Glob` and `Grep`
omit `root_dir`. -/
def registeredToolParams (name : String) : Option (List (String × Bool)) :=
  if name = "Glob" then some [("pattern", true)]
  else if name = "Grep" then some [("query", true), ("pattern", false)]
  else specToolParams name

/-- The (parameter, required?) view of a registered schema. -/
def schemaParams (s : ToolSchema) : List (String × Bool) :=
  s.properties.map (fun p => (p.1, s.required.contains p.1))

/-! ## Adapter construction and API keys (C3) -/

/-- Key resolution in `GeminiAgentEngine.__init__`: `GEMINI_API_KEY`
from the option overrides or the process environment, else
`GOOGLE_API_KEY` from either; Python `or` discards empty strings. -/
def geminiApiKey (optEnv : Option (List (String × String)))
    (osEnv : String → Option String) : Option String :=
  let oe := optEnv.getD []
  let first := match pyTruthy (envGet oe "GEMINI_API_KEY") with
    | true => envGet oe "GEMINI_API_KEY"
    | false => match pyTruthy (osEnv "GEMINI_API_KEY") with
      | true => osEnv "GEMINI_API_KEY"
      | false => none
  match first with
  | some k => some k
  | none =>
    match pyTruthy (envGet oe "GOOGLE_API_KEY") with
    | true => envGet oe "GOOGLE_API_KEY"
    | false => match pyTruthy (osEnv "GOOGLE_API_KEY") with
      | true => osEnv "GOOGLE_API_KEY"
      | false => none

/-- Embeds `GeminiAgentEngine.__init__` up to the key check: raises
`ValueError` when no truthy key is found, otherwise construction
proceeds with that key. -/
def geminiConstruct (opts : AgentOptions) (osEnv : String → Option String) :
    Except String String :=
  match geminiApiKey opts.env osEnv with
  | none => .error "GEMINI_API_KEY or GOOGLE_API_KEY must be provided"
  | some k => .ok k

/-- Key resolution in `OpenAIAgentEngine.__init__`:
`ZAI_API_KEY`/`OPENAI_API_KEY` from the option overrides, then from the
process environment. -/
def openaiApiKey (optEnv : Option (List (String × String)))
    (osEnv : String → Option String) : Option String :=
  let oe := optEnv.getD []
  let cands := [envGet oe "ZAI_API_KEY", envGet oe "OPENAI_API_KEY",
                osEnv "ZAI_API_KEY", osEnv "OPENAI_API_KEY"]
  (cands.find? pyTruthy).getD none

/-- Embeds `OpenAIAgentEngine.__init__`: fails (`RuntimeError`) only when the
`openai` package is missing; a missing API key is replaced by the
literal `"dummy-key"` and construction succeeds. -/
def openaiConstruct (openaiInstalled : Bool) (opts : AgentOptions)
    (osEnv : String → Option String) : Except String String :=
  if ¬ openaiInstalled then
    .error "openai package not installed. Run 'pip install openai'"
  else
    match openaiApiKey opts.env osEnv with
    | some k => .ok k
    | none => .ok "dummy-key"

/-! ## Chat-API adapter tool loop (`GeminiAgentEngine.receive_response`)

The Gemini backend is an oracle `passes : Nat → List GChunk` giving the
chunk stream returned by the n-th backend request of the turn (request
0 is issued by `query`; each call of `_handle_tool_calls` issues the
next).  Tool dispatch, which calls the built-in tool set on the real
filesystem, is abstracted as `execTool`. -/

/-- A `function_call` part embedded in a streamed chunk. -/
structure GFnCall where
  name : String
  args : List (String × String)
deriving Repr, DecidableEq

/-- One part of a streamed chunk: optional text, optional tool call. -/
structure GPart where
  text : Option String
  function_call : Option GFnCall
deriving Repr, DecidableEq

/-- A streamed chunk (the parts of its first candidate's content, which
is the candidate the tool-collection loop inspects). -/
structure GChunk where
  parts : List GPart
deriving Repr, DecidableEq

/-- Observable events of the chat-API adapter's envelope sequence:
a backend round-trip being issued (`sendReq n` is the n-th request of
the turn), a chunk re-emitted as an `AssistantMessage` envelope, and a
tool result emitted as a `UserMessage`/`ToolOutcome` envelope. -/
inductive GEv where
  | sendReq (n : Nat)
  | yieldChunk (chunk : GChunk)
  | yieldOutcome (content : String)
deriving Repr, DecidableEq

/-- The tool-call parts collected while iterating a pass's chunks. -/
def collectFCs (chunks : List GChunk) : List GFnCall :=
  chunks.flatMap (fun ch => ch.parts.filterMap (·.function_call))

/-- Embeds `GeminiAgentEngine.receive_response`: exhaust the current stream,
re-emitting every chunk; if the pass collected tool calls, execute them,
send the packaged results as the next request (inside
`_handle_tool_calls`, before the pending outcomes are yielded), yield
one outcome per result, and continue; otherwise stop.  `fuel` bounds
only how far the unbounded `while True:` loop is unrolled here. -/
def geminiReceive (passes : Nat → List GChunk) (execTool : GFnCall → String) :
    Nat → Nat → List GEv
  | 0, _ => []
  | fuel + 1, i =>
    let chunks := passes i
    let msgs := chunks.map GEv.yieldChunk
    let fcs := collectFCs chunks
    if chunks.isEmpty then msgs
    else if fcs.isEmpty then msgs
    else
      msgs ++ GEv.sendReq (i + 1) :: (fcs.map execTool).map GEv.yieldOutcome
        ++ geminiReceive passes execTool fuel (i + 1)

/-- Backend round-trips of a turn observed within `fuel` loop
iterations: the request issued by `query` plus every request issued by
`_handle_tool_calls`. -/
def geminiRoundTrips (passes : Nat → List GChunk) (execTool : GFnCall → String)
    (fuel : Nat) : Nat :=
  1 + (geminiReceive passes execTool fuel 0).countP (fun e =>
    match e with
    | .sendReq _ => true
    | _ => false)

/-- Whether an adapter event would surface any text to the caller (a
`TextDelta`): only chunk re-emissions whose parts carry truthy text. -/
def gHasText (e : GEv) : Bool :=
  match e with
  | .yieldChunk ch => ch.parts.any (fun p => pyTruthy p.text)
  | _ => false

/-! ## Delta-API adapter (`OpenAIAgentEngine`) -/

/-- One entry of `delta.tool_calls` in a streamed chunk: an index-
addressed fragment of a tool call. -/
structure OTCDelta where
  index : Nat
  id : Option String
  fname : Option String
  args : Option String
deriving Repr, DecidableEq

/-- Embeds `chunk.choices[0].delta`: optional content text plus tool-call
fragments. -/
structure ODelta where
  content : Option String
  tool_calls : List OTCDelta
deriving Repr, DecidableEq

/-- A reconstructed tool call
`{"id": ..., "type": "function", "function": {"name": ..., "arguments": ...}}`. -/
structure OToolCall where
  id : String
  fname : String
  args : String
deriving Repr, DecidableEq

/-- The fresh slot appended when a not-yet-seen index arrives. -/
def emptyToolCall : OToolCall := { id := "", fname := "", args := "" }

/-- Append a fragment's truthy fields to a slot (`tc["id"] += ...` etc.;
appending an absent or empty field is the identity either way). -/
def updToolCall (tc : OToolCall) (d : OTCDelta) : OToolCall :=
  let tc := if pyTruthy d.id then { tc with id := tc.id ++ d.id.getD "" } else tc
  let tc := if pyTruthy d.fname then { tc with fname := tc.fname ++ d.fname.getD "" } else tc
  if pyTruthy d.args then { tc with args := tc.args ++ d.args.getD "" } else tc

/-- Apply one tool-call fragment: if the slot list is too short, append
one — exactly one — fresh slot; then index into the list (raising
`IndexError` when the fragment's index is still out of range) and append
the fragment's truthy fields to that slot. -/
def applyDelta (calls : List OToolCall) (d : OTCDelta) :
    Except String (List OToolCall) :=
  let calls := if calls.length ≤ d.index then calls ++ [emptyToolCall] else calls
  match calls.get? d.index with
  | none => .error "IndexError: list index out of range"
  | some tc => .ok (calls.set d.index (updToolCall tc d))

/-- Accumulate a whole stream of tool-call fragments. -/
def applyDeltas (ds : List OTCDelta) : Except String (List OToolCall) :=
  ds.foldlM applyDelta []

/-- Modelled from the spec (§4.4), for comparison with `applyDelta`:
"maintain a growing list of partially reconstructed calls keyed by
stream index; for each delta, append to the matching call's identifier,
name, and argument-string fields (creating a new slot if the index is
new)".  Keyed-by-index slot creation never fails: missing slots up to
the delta's index are created. -/
def specApplyDelta (calls : List OToolCall) (d : OTCDelta) : List OToolCall :=
  let calls :=
    if calls.length ≤ d.index then
      calls ++ List.replicate (d.index + 1 - calls.length) emptyToolCall
    else calls
  match calls.get? d.index with
  | none => calls
  | some tc => calls.set d.index (updToolCall tc d)

/-- Spec-side accumulation of a whole fragment stream. -/
def specApplyDeltas (ds : List OTCDelta) : List OToolCall :=
  ds.foldl specApplyDelta []

/-- The fragment streams the delta-API wire format actually produces:
each fragment's index is at most the number of slots already created
(new calls appear at the next free index). -/
def denseIdx : Nat → List OTCDelta → Bool
  | _, [] => true
  | n, d :: ds =>
    if d.index < n then denseIdx n ds
    else if d.index = n then denseIdx (n + 1) ds
    else false

/-- A conversation-history entry of the delta-API adapter. -/
structure OMsg where
  role : String
  content : Option String
  tool_calls : List OToolCall := []
  tool_call_id : Option String := none
  name : Option String := none
deriving Repr, DecidableEq

/-- Observable events of the delta-API adapter: a backend request
(`chat.completions.create`), a content delta re-emitted as an
`AssistantMessage`, a tool outcome emitted as a `UserMessage`. -/
inductive OEv where
  | sendReq (n : Nat)
  | yieldText (s : String)
  | yieldOutcome (callId content : String)
deriving Repr, DecidableEq

/-- The entry `\x7b"role": "system", "content": prompt\x7d`. -/
def sysMsg (prompt : String) : OMsg :=
  { role := "system", content := some prompt }

/-- The entry `\x7b"role": "user", "content": message\x7d`. -/
def userMsg (message : String) : OMsg :=
  { role := "user", content := some message }

/-- The entry `\x7b"role": "assistant", "content": content\x7d`. -/
def assistantMsg (content : String) : OMsg :=
  { role := "assistant", content := some content }

/-- The assistant tool-call message
`{"role": "assistant", "content": current_content or None, "tool_calls": ...}`. -/
def assistantToolCallMsg (content : String) (calls : List OToolCall) : OMsg :=
  { role := "assistant",
    content := if content ≠ "" then some content else none,
    tool_calls := calls }

/-- The tool-result entry `{"role": "tool", "tool_call_id": ...,
"name": ..., "content": ...}`. -/
def toolMsg (tc : OToolCall) (result : String) : OMsg :=
  { role := "tool", content := some result,
    tool_call_id := some tc.id, name := some tc.fname }

/-- Embeds `OpenAIAgentEngine._set_system_prompt_msg`: seed or update the
`system` entry in place, inserting it at the front if absent. -/
def setSystemPromptMsg (sysPrompt : String) (history : List OMsg) : List OMsg :=
  match history with
  | [] => [sysMsg sysPrompt]
  | h :: t =>
    if h.role = "system" then { h with content := some sysPrompt } :: t
    else sysMsg sysPrompt :: h :: t

/-- The history right after `OpenAIAgentEngine.__init__`. -/
def openaiInitHistory (sysPrompt : String) : List OMsg :=
  setSystemPromptMsg sysPrompt []

/-- Process one pass's streamed deltas: concatenate truthy content
(yielding a text event per content delta) and fold the tool-call
fragments through `applyDelta`; an `IndexError` aborts the stream with
the events seen so far. -/
def oRunPassAux (content : String) (calls : List OToolCall) (evs : List OEv) :
    List ODelta → String × List OToolCall × List OEv × Bool
  | [] => (content, calls, evs, false)
  | d :: ds =>
    let content' := if pyTruthy d.content then content ++ d.content.getD "" else content
    let evs' := if pyTruthy d.content then evs ++ [OEv.yieldText (d.content.getD "")] else evs
    match d.tool_calls.foldlM applyDelta calls with
    | .error _ => (content', calls, evs', true)
    | .ok calls' => oRunPassAux content' calls' evs' ds

/-- One pass's stream processing, starting from empty accumulators. -/
def oRunPass (deltas : List ODelta) : String × List OToolCall × List OEv × Bool :=
  oRunPassAux "" [] [] deltas

/-- Embeds `OpenAIAgentEngine._handle_tool_calls`: execute each reconstructed
call in order, appending a `tool`-role entry and yielding an outcome per
call.  Tool dispatch is abstracted as `execTool`. -/
def oHandleToolCalls (execTool : OToolCall → String) :
    List OToolCall → List OMsg → List OEv × List OMsg
  | [], history => ([], history)
  | tc :: rest, history =>
    let result := execTool tc
    let hist := history ++ [toolMsg tc result]
    let r := oHandleToolCalls execTool rest hist
    (OEv.yieldOutcome tc.id result :: r.1, r.2)

/-- Embeds `OpenAIAgentEngine.receive_response`: each iteration issues one
backend request, streams the pass, appends the assistant content and —
when tool calls were reconstructed — the assistant tool-call message and
the tool results, then loops; a pass with no tool calls ends the turn.
Returns the events, the final history, and whether the pass raised.
`fuel` bounds only how far the unbounded loop is unrolled. -/
def openaiReceive (passes : Nat → List ODelta) (execTool : OToolCall → String) :
    Nat → Nat → List OMsg → List OEv × List OMsg × Bool
  | 0, _, hist => ([], hist, false)
  | fuel + 1, i, hist =>
    let pr := oRunPass (passes i)
    let content := pr.1
    let calls := pr.2.1
    let evs := pr.2.2.1
    let errored := pr.2.2.2
    if errored then (OEv.sendReq i :: evs, hist, true)
    else
      let hist := if content ≠ "" then hist ++ [assistantMsg content] else hist
      if calls.isEmpty then (OEv.sendReq i :: evs, hist, false)
      else
        let hist := hist ++ [assistantToolCallMsg content calls]
        let tr := oHandleToolCalls execTool calls hist
        let rr := openaiReceive passes execTool fuel (i + 1) tr.2
        (OEv.sendReq i :: evs ++ tr.1 ++ rr.1, rr.2.1, rr.2.2)

/-- The operations that touch the delta-API adapter's history after
construction: `set_system_prompt`, `query`, and one call of
`receive_response` (with its backend stream and tool dispatch). -/
inductive OOp where
  | setSys (p : String)
  | userQ (m : String)
  | receive (passes : Nat → List ODelta) (execTool : OToolCall → String) (fuel : Nat)

/-- Apply one operation to the adapter state `(history, system_prompt)`. -/
def oApplyOp (st : List OMsg × String) : OOp → List OMsg × String
  | .setSys p => (setSystemPromptMsg p st.1, p)
  | .userQ m => (st.1 ++ [userMsg m], st.2)
  | .receive passes execTool fuel =>
    ((openaiReceive passes execTool fuel 0 st.1).2.1, st.2)

/-- Run a sequence of operations from the freshly constructed state. -/
def oRunOps (sysPrompt : String) (ops : List OOp) : List OMsg × String :=
  ops.foldl oApplyOp (openaiInitHistory sysPrompt, sysPrompt)

/-- The §3 history invariant: at most one `system` entry, and when one
is present it is the first entry. -/
def histInv (h : List OMsg) : Prop :=
  (h.countP (fun e => e.role = "system")) ≤ 1 ∧
  ∀ i, ∀ e, h.get? i = some e → e.role = "system" → i = 0

/-! ## JSON argument decoding (for the reconstruction scenario)

Modelled from Python `json.loads`, restricted to flat objects with
string keys, string values and no escape sequences — the only shape the
reconstruction scenario of §8 exercises. -/

/-- The literal `{` and `}` characters. -/
def obrace : Char := '\x7b'

/-- See `obrace`. -/
def cbrace : Char := '\x7d'

/-- Skip JSON whitespace. -/
def skipWs (l : List Char) : List Char :=
  l.dropWhile (fun c => isPyWs c)

/-- Scan a string literal's body up to the closing quote (no escapes). -/
def scanStr (accRev : List Char) : List Char → Option (String × List Char)
  | [] => none
  | c :: cs =>
    if c = '"' then some (⟨accRev.reverse⟩, cs)
    else if c = '\\' then none
    else scanStr (c :: accRev) cs

/-- Parse a comma-separated run of `"key": "value"` pairs. -/
def jsonPairs : Nat → List Char → Option (List (String × String) × List Char)
  | 0, _ => none
  | fuel + 1, l =>
    match l with
    | '"' :: rest =>
      match scanStr [] rest with
      | none => none
      | some (k, rest1) =>
        match skipWs rest1 with
        | ':' :: rest2 =>
          match skipWs rest2 with
          | '"' :: rest3 =>
            match scanStr [] rest3 with
            | none => none
            | some (v, rest4) =>
              match skipWs rest4 with
              | ',' :: rest5 =>
                match jsonPairs fuel (skipWs rest5) with
                | some (ps, rem) => some ((k, v) :: ps, rem)
                | none => none
              | rem => some ([(k, v)], rem)
          | _ => none
        | _ => none
    | _ => none

/-- Python `json.loads` on a flat string-valued object. -/
def jsonLoadsFlat (s : String) : Option (List (String × String)) :=
  match skipWs s.data with
  | [] => none
  | c :: rest =>
    if c ≠ obrace then none
    else
      match skipWs rest with
      | [] => none
      | c2 :: rest2 =>
        if c2 = cbrace then (if (skipWs rest2).isEmpty then some [] else none)
        else
          match jsonPairs (s.data.length + 1) (c2 :: rest2) with
          | none => none
          | some (ps, rem) =>
            match skipWs rem with
            | c3 :: rest3 =>
              if c3 = cbrace ∧ (skipWs rest3).isEmpty then some ps else none
            | [] => none

/-! ## Subprocess adapter (`CustomCliAgentEngine`) -/

/-- Embeds `CustomCliAgentEngine._load_session_id`: with no spec directory the
marker stays unset; otherwise the persisted file's content (when the
file exists and is readable) is read and stripped. -/
def loadSessionId (specDir : Option String) (fileContent : Option String) :
    Option String :=
  match specDir with
  | none => none
  | some _ => fileContent.map pyStrip

/-- The default command template baked into `receive_response`. -/
def defaultCliTemplate : String :=
  "droid exec --model \x7bmodel\x7d --output-format stream-json --input-format stream-json --auto low"

/-- The default model substituted for a falsy `options.model`. -/
def defaultCliModel : String := "custom:GLM-4.7-[Z.AI-Coding-Plan]-7"

/-- The `{model}` placeholder as an explicit character list. -/
def phModel : List Char := ['\x7b', 'm', 'o', 'd', 'e', 'l', '\x7d']

/-- The `{projectDir}` placeholder. -/
def phProjectDir : List Char :=
  ['\x7b', 'p', 'r', 'o', 'j', 'e', 'c', 't', 'D', 'i', 'r', '\x7d']

/-- The `{specDir}` placeholder. -/
def phSpecDir : List Char := ['\x7b', 's', 'p', 'e', 'c', 'D', 'i', 'r', '\x7d']

/-- The `{sessionId}` placeholder. -/
def phSessionId : List Char :=
  ['\x7b', 's', 'e', 's', 's', 'i', 'o', 'n', 'I', 'd', '\x7d']

/-- The placeholder/value table of `template.format(model=..,
projectDir=.., specDir=.., sessionId=..)`. -/
def phList (model projDir specDir sid : String) : List (List Char × List Char) :=
  [(phModel, model.data),
   (phProjectDir, projDir.data),
   (phSpecDir, specDir.data),
   (phSessionId, sid.data)]

/-- Find the first placeholder matching at the head of the input,
returning its value and the matched length. -/
def findPh (subs : List (List Char × List Char)) (l : List Char) :
    Option (List Char × Nat) :=
  match subs with
  | [] => none
  | (p, v) :: ps => if p.isPrefixOf l then some (v, p.length) else findPh ps l

/-- One left-to-right scan of Python `str.format` over the four keyword
fields: a recognised placeholder is replaced (its value is not
re-scanned); any other brace is a format error (`KeyError` on an unknown
field, `ValueError` on a lone brace) and yields `none`.  The `{{`/`}}`
escapes, which no template in the repository uses, are not modelled.
`fuel` makes the recursion structural; the input length suffices. -/
def pyFormatAux (subs : List (List Char × List Char)) :
    Nat → List Char → Option (List Char)
  | _, [] => some []
  | 0, _ => none
  | fuel + 1, c :: cs =>
    match findPh subs (c :: cs) with
    | some (v, k) => (pyFormatAux subs fuel ((c :: cs).drop k)).map (v ++ ·)
    | none =>
      if c = obrace ∨ c = cbrace then none
      else (pyFormatAux subs fuel cs).map (c :: ·)

/-- Runs `pyFormatAux` at its canonical fuel (the input length). -/
def pyFmt (subs : List (List Char × List Char)) (l : List Char) : Option (List Char) :=
  pyFormatAux subs l.length l

/-- Embeds `template.format(model=.., projectDir=.., specDir=.., sessionId=..)`. -/
def pyFormat (model projDir specDir sid tmpl : String) : Option String :=
  (pyFmt (phList model projDir specDir sid) tmpl.data).map (fun l => ⟨l⟩)

/-- The single-quote character. -/
def squote : Char := '\x27'

/-- Whitespace as `shlex` token separators. -/
def isShWs (c : Char) : Bool := c = ' ' ∨ c = '\t' ∨ c = '\r' ∨ c = '\n'

/-- Lexer state of the `shlex.split` model: the currently open quote
character, the current token (reversed characters; `none` when between
tokens), and completed tokens in reverse order. -/
structure SState where
  quote : Option Char
  cur : Option (List Char)
  acc : List String
deriving Repr, DecidableEq

/-- Close the current token, if one is open. -/
def flushTok (st : SState) : List String :=
  match st.cur with
  | none => st.acc
  | some t => String.mk t.reverse :: st.acc

/-- One character of `shlex.split` (POSIX mode; backslash escapes and
comment handling, which no command line in the repository uses, are not
modelled). -/
def shlexStep (st : SState) (c : Char) : SState :=
  match st.quote with
  | some q => if c = q then { st with quote := none }
              else { st with cur := some (c :: st.cur.getD []) }
  | none =>
    if isShWs c then { quote := none, cur := none, acc := flushTok st }
    else if c = '"' ∨ c = squote then
      { st with quote := some c, cur := some (st.cur.getD []) }
    else { st with cur := some (c :: st.cur.getD []) }

/-- Embeds `shlex.split`: `none` models the `ValueError` raised on an unclosed
quotation. -/
def shlexSplit (s : String) : Option (List String) :=
  let st := s.data.foldl shlexStep ⟨none, none, []⟩
  match st.quote with
  | some _ => none
  | none => some (flushTok st).reverse

/-- The flags whose empty values the cleanup loop strips. -/
def cliFlagNames : List String := ["--session-id", "-s", "--spec-dir", "--project-dir"]

/-- The cleanup loop of `receive_response`: drop every recognised flag
that is immediately followed by an empty-string value, together with
that value. -/
def stripEmptyFlagVals : List String → List String
  | [] => []
  | [a] => [a]
  | a :: b :: rest =>
    if cliFlagNames.contains a ∧ b = "" then stripEmptyFlagVals rest
    else a :: stripEmptyFlagVals (b :: rest)

/-- Command-line construction in `CustomCliAgentEngine.receive_response`
(lines up to the empty-flag cleanup): default the model, auto-append a
session flag when a session id is loaded and the template mentions no
session placeholder or flag, substitute the placeholders, `shlex`-split,
and strip empty flag values.  `none` models a raised format or lexer
error. -/
def buildCliArgs (template modelOpt : String) (cwd specDir sessionId : Option String) :
    Option (List String) :=
  let model := if modelOpt ≠ "" then modelOpt else defaultCliModel
  let template :=
    if pyTruthy sessionId ∧ ¬ strIn "\x7bsessionId\x7d" template ∧
        ¬ strIn "-s" template ∧ ¬ strIn "--session-id" template then
      template ++ " -s \x7bsessionId\x7d"
    else template
  match pyFormat model (pyOrD cwd ".") (pyOrD specDir ".") (sessionId.getD "") template with
  | none => none
  | some cmd =>
    match shlexSplit cmd with
    | none => none
    | some args => some (stripEmptyFlagVals args)

/-! ## Concrete oracles and event predicates used by the theorems -/

/-- A concrete instance of the `re.compile` oracle, modelled from the
Python `re` module at the single input the counterexample uses:
`re.compile("(")` raises `re.error("missing ), unterminated subpattern
at position 0")`; on any other input this instance compiles to some
matcher, which no theorem inspects. -/
def reCompileCE : String → Except PyErr (String → Bool) := fun q =>
  if q = "(" then .error (.reError "missing ), unterminated subpattern at position 0")
  else .ok (fun _ => false)

/-- A `Read{file_path: "a.txt"}` tool-call part. -/
def gReadCall : GFnCall := { name := "Read", args := [("file_path", "a.txt")] }

/-- A chunk carrying only that tool-call part and no text. -/
def gToolOnlyChunk : GChunk :=
  { parts := [{ text := none, function_call := some gReadCall }] }

/-- A chunk carrying only text. -/
def gTextChunk : GChunk :=
  { parts := [{ text := some "done", function_call := none }] }

/-- A backend whose every pass requests another tool call. -/
def gAlwaysToolPasses : Nat → List GChunk := fun _ => [gToolOnlyChunk]

/-- The §8 chat-API scenario: the first pass yields one `Read` call and
no text; the second yields text and no tool calls. -/
def gScenarioPasses : Nat → List GChunk := fun i =>
  if i = 0 then [gToolOnlyChunk] else if i = 1 then [gTextChunk] else []

/-- A tool dispatcher returning a fixed result. -/
def gExecConst : GFnCall → String := fun _ => "file contents"

/-- Is this chat-API adapter event a backend request? -/
def gIsReq : GEv → Bool := fun e =>
  match e with
  | .sendReq _ => true
  | _ => false

/-- First fragment of the §8 delta-API scenario:
`{index: 0, id: "call_1", name: "Bash", arguments: "{\"comm"}`. -/
def oBashDelta1 : ODelta :=
  { content := none,
    tool_calls := [{ index := 0, id := some "call_1", fname := some "Bash",
                     args := some "\x7b\"comm" }] }

/-- Second fragment: `{index: 0, arguments: "and\":\"ls\"}"}`. -/
def oBashDelta2 : ODelta :=
  { content := none,
    tool_calls := [{ index := 0, id := none, fname := none,
                     args := some "and\":\"ls\"\x7d" }] }

/-- A delta-API backend whose every pass requests the same Bash call. -/
def oAlwaysToolPasses : Nat → List ODelta := fun _ => [oBashDelta1, oBashDelta2]

/-- A tool dispatcher returning a fixed result. -/
def oExecConst : OToolCall → String := fun _ => "r"

/-- Is this delta-API adapter event a backend request? -/
def oIsReq : OEv → Bool := fun e =>
  match e with
  | .sendReq _ => true
  | _ => false

/-- Is this delta-API adapter event a text envelope? -/
def oHasText : OEv → Bool := fun e =>
  match e with
  | .yieldText _ => true
  | _ => false

/-- Backend round-trips of one delta-API turn observed within `fuel`
loop iterations. -/
def openaiRoundTrips (passes : Nat → List ODelta) (execTool : OToolCall → String)
    (fuel : Nat) (hist : List OMsg) : Nat :=
  ((openaiReceive passes execTool fuel 0 hist).1).countP oIsReq

/-- A configuration whose turn budget is one round. -/
def cfgBudgetOne : AgentOptions :=
  { model := "gemini-pro", system_prompt := "sp", max_turns := 1 }

/-! # Theorems -/

/-! ## Helper lemmas -/

/-- Fuel invariance of `pyReplaceAux`: any two fuels at least the input
length compute the same result. -/
theorem pyReplaceAux_fuel (pat rep : List Char) :
    ∀ (n : Nat) (s : List Char) (f1 f2 : Nat), s.length ≤ n → s.length ≤ f1 →
      s.length ≤ f2 → pyReplaceAux pat rep f1 s = pyReplaceAux pat rep f2 s := by
  intro n
  induction n with
  | zero =>
    intro s f1 f2 hs _ _
    have hnil : s = [] := List.eq_nil_of_length_eq_zero (Nat.le_zero.mp hs)
    subst hnil
    cases f1 <;> cases f2 <;> simp [pyReplaceAux]
  | succ n ih =>
    intro s f1 f2 hs h1 h2
    match s, f1, f2 with
    | [], f1, f2 => cases f1 <;> cases f2 <;> simp [pyReplaceAux]
    | c :: cs, f1 + 1, f2 + 1 =>
      simp only [List.length_cons, Nat.succ_le_succ_iff] at hs h1 h2
      simp only [pyReplaceAux]
      by_cases h : pat.isPrefixOf (c :: cs) ∧ pat.length ≠ 0
      · simp only [if_pos h]
        have hdl : (cs.drop (pat.length - 1)).length ≤ cs.length := by
          simp [List.length_drop]
        exact congrArg (rep ++ ·)
          (ih _ _ _ (le_trans hdl hs) (le_trans hdl h1) (le_trans hdl h2))
      · simp only [if_neg h]
        exact congrArg (c :: ·) (ih _ _ _ hs h1 h2)

/-- A leading occurrence of a nonempty target is replaced, and the scan
continues on the remainder of the string (later occurrences are
therefore replaced as well, not only the first). -/
theorem pyReplace_head_occurrence (t r s : String) (ht : t ≠ "") :
    pyReplace (t ++ s) t r = r ++ pyReplace s t r := by
  cases t with | mk tl =>
  cases r with | mk rl =>
  cases s with | mk sl =>
  match tl with
  | [] => exact absurd rfl ht
  | c :: cs =>
    show pyReplace ⟨(c :: cs) ++ sl⟩ ⟨c :: cs⟩ ⟨rl⟩ =
      ⟨rl⟩ ++ pyReplace ⟨sl⟩ ⟨c :: cs⟩ ⟨rl⟩
    unfold pyReplace
    rw [if_neg (by simp), if_neg (by simp)]
    show (⟨pyReplaceAux (c :: cs) rl ((c :: cs) ++ sl).length ((c :: cs) ++ sl)⟩ : String) =
      ⟨rl⟩ ++ ⟨pyReplaceAux (c :: cs) rl sl.length sl⟩
    have hstep : pyReplaceAux (c :: cs) rl ((c :: cs) ++ sl).length ((c :: cs) ++ sl) =
        rl ++ pyReplaceAux (c :: cs) rl sl.length sl := by
      have hcons : (c :: cs) ++ sl = c :: (cs ++ sl) := rfl
      rw [hcons]
      simp only [pyReplaceAux, List.length_cons]
      rw [if_pos]
      · have hdrop : (cs ++ sl).drop ((c :: cs).length - 1) = sl := by
          simp only [List.length_cons, Nat.add_sub_cancel]
          exact List.drop_left cs sl
        simp only [List.length_cons, Nat.add_sub_cancel] at hdrop ⊢
        rw [hdrop]
        exact congrArg (rl ++ ·)
          (pyReplaceAux_fuel _ _ sl.length sl (cs ++ sl).length sl.length le_rfl
            (by simp) le_rfl)
      · exact ⟨List.isPrefixOf_iff_prefix.mpr ⟨sl, rfl⟩, by simp⟩
    rw [hstep]
    rfl

/-! ## C7 — Edit is idempotent-on-failure and atomic on error -/

/-- Claim C7: for every existing file whose content does not contain the
target string, `edit_file` returns the "target content not found" error
and leaves the filesystem unchanged, and calling it a second time with
the same arguments returns the same error again with the file still
unchanged. -/
theorem c7_edit_file_idempotent_on_failure
    (fs : List (String × String)) (fp tgt rep content : String)
    (hread : fsRead fs fp = some content)
    (habsent : strIn tgt content = false) :
    edit_file fs fp tgt rep = ("Error: Target content not found in " ++ fp, fs) ∧
    edit_file (edit_file fs fp tgt rep).2 fp tgt rep =
      ("Error: Target content not found in " ++ fp, fs) := by
  have h1 : edit_file fs fp tgt rep = ("Error: Target content not found in " ++ fp, fs) := by
    unfold edit_file
    rw [hread]
    simp [habsent]
  exact ⟨h1, by rw [h1]; exact h1⟩

/-- Witness for C7 at a concrete filesystem. -/
theorem c7_edit_file_idempotent_on_failure_witness :
    fsRead [("f.txt", "hello world")] "f.txt" = some "hello world" ∧
    strIn "absent" "hello world" = false ∧
    edit_file [("f.txt", "hello world")] "f.txt" "absent" "r" =
      ("Error: Target content not found in " ++ "f.txt", [("f.txt", "hello world")]) ∧
    edit_file (edit_file [("f.txt", "hello world")] "f.txt" "absent" "r").2
        "f.txt" "absent" "r" =
      ("Error: Target content not found in " ++ "f.txt", [("f.txt", "hello world")]) := by
  have h := c7_edit_file_idempotent_on_failure [("f.txt", "hello world")]
    "f.txt" "absent" "r" "hello world" (by decide) (by decide)
  exact ⟨by decide, by decide, h.1, h.2⟩

/-! ## C10 — Edit replaces every occurrence on success -/

/-- Claim C10: for every existing file whose content contains the
target, `edit_file` returns the success confirmation and rewrites the
file with `str.replace` semantics — every occurrence replaced: a leading
occurrence of a nonempty target is replaced and the scan continues on
the remainder of the string, as the second conjunct states, and the
concrete third conjunct replaces two occurrences. -/
theorem c10_edit_file_replaces_all_occurrences
    (fs : List (String × String)) (fp tgt rep content : String)
    (hread : fsRead fs fp = some content)
    (hpresent : strIn tgt content = true) :
    edit_file fs fp tgt rep =
      ("Successfully edited " ++ fp, fsWrite fs fp (pyReplace content tgt rep)) ∧
    (∀ s : String, tgt ≠ "" → pyReplace (tgt ++ s) tgt rep = rep ++ pyReplace s tgt rep) ∧
    pyReplace "one two one" "one" "1" = "1 two 1" := by
  refine ⟨?_, fun s h => pyReplace_head_occurrence tgt rep s h, by decide⟩
  unfold edit_file
  rw [hread]
  simp [hpresent]

/-- Witness for C10 at a concrete filesystem with two occurrences. -/
theorem c10_edit_file_replaces_all_occurrences_witness :
    fsRead [("a.txt", "one two one")] "a.txt" = some "one two one" ∧
    strIn "one" "one two one" = true ∧
    edit_file [("a.txt", "one two one")] "a.txt" "one" "1" =
      ("Successfully edited " ++ "a.txt",
       fsWrite [("a.txt", "one two one")] "a.txt" (pyReplace "one two one" "one" "1")) ∧
    pyReplace ("one" ++ " rest") "one" "1" = "1" ++ pyReplace " rest" "one" "1" ∧
    pyReplace "one two one" "one" "1" = "1 two 1" := by
  have h := c10_edit_file_replaces_all_occurrences [("a.txt", "one two one")]
    "a.txt" "one" "1" "one two one" (by decide) (by decide)
  exact ⟨by decide, by decide, h.1, h.2.1 " rest" (by decide), h.2.2⟩


/-! ## C8 — the delta-API history keeps at most one system entry, first -/

/-- The method `_handle_tool_calls` only appends `tool`-role entries to history. -/
theorem oHandleToolCalls_appends_tool (et : OToolCall → String) :
    ∀ (calls : List OToolCall) (hist : List OMsg),
      ∃ ms, (oHandleToolCalls et calls hist).2 = hist ++ ms ∧
        ∀ m ∈ ms, m.role = "tool" := by
  intro calls
  induction calls with
  | nil =>
    intro hist
    exact ⟨[], by simp [oHandleToolCalls], by simp⟩
  | cons tc rest ih =>
    intro hist
    obtain ⟨ms, hm, hr⟩ := ih (hist ++ [toolMsg tc (et tc)])
    refine ⟨toolMsg tc (et tc) :: ms, ?_, ?_⟩
    · simpa [oHandleToolCalls] using hm
    · intro m hmem
      rcases List.mem_cons.mp hmem with h | h
      · rw [h]; rfl
      · exact hr m h

/-- The method `receive_response` only appends `assistant`- and `tool`-role entries
to history. -/
theorem openaiReceive_appends_non_system (passes : Nat → List ODelta)
    (et : OToolCall → String) :
    ∀ (fuel i : Nat) (hist : List OMsg),
      ∃ ms, (openaiReceive passes et fuel i hist).2.1 = hist ++ ms ∧
        ∀ m ∈ ms, m.role ≠ "system" := by
  intro fuel
  induction fuel with
  | zero =>
    intro i hist
    exact ⟨[], by simp [openaiReceive], by simp⟩
  | succ fuel ih =>
    intro i hist
    simp only [openaiReceive]
    by_cases herr : (oRunPass (passes i)).2.2.2 = true
    · rw [if_pos herr]
      exact ⟨[], by simp, by simp⟩
    · rw [if_neg herr]
      by_cases hcalls : (oRunPass (passes i)).2.1.isEmpty = true
      · rw [if_pos hcalls]
        by_cases hc : (oRunPass (passes i)).1 ≠ ""
        · rw [if_pos hc]
          refine ⟨[assistantMsg (oRunPass (passes i)).1], rfl, ?_⟩
          intro m hm
          rw [List.mem_singleton.mp hm]
          simp [assistantMsg]
        · rw [if_neg hc]
          exact ⟨[], by simp, by simp⟩
      · rw [if_neg hcalls]
        obtain ⟨pre, hpre, hprerole⟩ :
            ∃ pre, (if (oRunPass (passes i)).1 ≠ "" then
                hist ++ [assistantMsg (oRunPass (passes i)).1] else hist) = hist ++ pre ∧
              ∀ m ∈ pre, m.role ≠ "system" := by
          by_cases hc : (oRunPass (passes i)).1 ≠ ""
          · refine ⟨[assistantMsg (oRunPass (passes i)).1], by rw [if_pos hc], ?_⟩
            intro m hm
            rw [List.mem_singleton.mp hm]
            simp [assistantMsg]
          · exact ⟨[], by rw [if_neg hc]; simp, by simp⟩
        rw [hpre]
        obtain ⟨ms1, hm1, hr1⟩ := oHandleToolCalls_appends_tool et
          ((oRunPass (passes i)).2.1)
          ((hist ++ pre) ++
            [assistantToolCallMsg (oRunPass (passes i)).1 ((oRunPass (passes i)).2.1)])
        obtain ⟨ms2, hm2, hr2⟩ := ih (i + 1)
          ((oHandleToolCalls et ((oRunPass (passes i)).2.1)
            ((hist ++ pre) ++
              [assistantToolCallMsg (oRunPass (passes i)).1 ((oRunPass (passes i)).2.1)])).2)
        refine ⟨pre ++
          [assistantToolCallMsg (oRunPass (passes i)).1 ((oRunPass (passes i)).2.1)] ++
          ms1 ++ ms2, ?_, ?_⟩
        · rw [hm2, hm1]
          simp [List.append_assoc]
        · intro m hm
          simp only [List.append_assoc, List.mem_append, List.mem_singleton] at hm
          rcases hm with h | h | h | h
          · exact hprerole m h
          · rw [h]; simp [assistantToolCallMsg]
          · rw [hr1 m h]; decide
          · exact hr2 m h

/-- The method `_set_system_prompt_msg` preserves a system-free tail. -/
theorem setSystemPromptMsg_tail (p : String) (h : List OMsg)
    (hh : ∀ e ∈ h.drop 1, e.role ≠ "system") :
    ∀ e ∈ (setSystemPromptMsg p h).drop 1, e.role ≠ "system" := by
  cases h with
  | nil =>
    intro e he
    simp [setSystemPromptMsg] at he
  | cons x t =>
    by_cases hx : x.role = "system"
    · intro e he
      simp only [setSystemPromptMsg, if_pos hx, List.drop_succ_cons, List.drop_zero] at he
      exact hh e (by simpa using he)
    · intro e he
      simp only [setSystemPromptMsg, if_neg hx, List.drop_succ_cons, List.drop_zero] at he
      rcases List.mem_cons.mp he with rfl | he
      · exact hx
      · exact hh e (by simpa using he)

/-- Appending system-free entries preserves a system-free tail. -/
theorem tail_append_non_system (h ms : List OMsg)
    (hh : ∀ e ∈ h.drop 1, e.role ≠ "system")
    (hm : ∀ m ∈ ms, m.role ≠ "system") :
    ∀ e ∈ (h ++ ms).drop 1, e.role ≠ "system" := by
  cases h with
  | nil =>
    intro e he
    simp only [List.nil_append] at he
    exact hm e (List.mem_of_mem_drop he)
  | cons x t =>
    intro e he
    simp only [List.cons_append, List.drop_succ_cons, List.drop_zero] at he
    rcases List.mem_append.mp he with h1 | h2
    · exact hh e (by simpa using h1)
    · exact hm e h2

/-- Claim C8: for the delta-API adapter's conversation history, after
any sequence of operations (construction, `set_system_prompt`, `query`,
and any number of tool-resolution rounds inside `receive_response`),
the history contains at most one `system` entry, and when present it is
the first entry. -/
theorem c8_openai_history_system_invariant (sysPrompt : String) (ops : List OOp) :
    histInv (oRunOps sysPrompt ops).1 := by
  have tail : ∀ e ∈ (oRunOps sysPrompt ops).1.drop 1, e.role ≠ "system" := by
    have step : ∀ (st : List OMsg × String) (op : OOp),
        (∀ e ∈ st.1.drop 1, e.role ≠ "system") →
        ∀ e ∈ (oApplyOp st op).1.drop 1, e.role ≠ "system" := by
      intro st op hinv
      cases op with
      | setSys p => exact setSystemPromptMsg_tail p st.1 hinv
      | userQ m =>
        exact tail_append_non_system st.1 [userMsg m] hinv
          (by intro m' hm'; rw [List.mem_singleton.mp hm']; simp [userMsg])
      | receive passes et fuel =>
        obtain ⟨ms, hm, hr⟩ := openaiReceive_appends_non_system passes et fuel 0 st.1
        show ∀ e ∈ ((openaiReceive passes et fuel 0 st.1).2.1).drop 1, e.role ≠ "system"
        rw [hm]
        exact tail_append_non_system st.1 ms hinv hr
    have run : ∀ (ops : List OOp) (st : List OMsg × String),
        (∀ e ∈ st.1.drop 1, e.role ≠ "system") →
        ∀ e ∈ (List.foldl oApplyOp st ops).1.drop 1, e.role ≠ "system" := by
      intro ops
      induction ops with
      | nil => intro st h; simpa using h
      | cons op rest ih =>
        intro st h
        exact ih (oApplyOp st op) (step st op h)
    refine run ops (openaiInitHistory sysPrompt, sysPrompt) ?_
    intro e he
    simp [openaiInitHistory, setSystemPromptMsg] at he
  constructor
  · cases hL : (oRunOps sysPrompt ops).1 with
    | nil => simp
    | cons x t =>
      have ht : ∀ e ∈ t, ¬ (e.role = "system") := by
        intro e he
        apply tail
        rw [hL]
        simpa using he
      have hz : t.countP (fun e => e.role = "system") = 0 :=
        List.countP_eq_zero.mpr (by intro a ha; simpa using ht a ha)
      simp [List.countP_cons, hz]
      split <;> simp
  · intro i e hget hrole
    by_contra hne
    obtain ⟨k, rfl⟩ := Nat.exists_eq_succ_of_ne_zero hne
    have hmem : e ∈ (oRunOps sysPrompt ops).1.drop 1 := by
      have hd : ((oRunOps sysPrompt ops).1.drop 1).get? k =
          (oRunOps sysPrompt ops).1.get? (1 + k) := List.get?_drop _ 1 k
      rw [Nat.add_comm] at hd
      exact List.get?_mem (by rw [hd]; exact hget)
    exact tail e hmem hrole

/-! ## C6 — delta-API tool-call reconstruction -/

/-- One accumulation step agrees with the spec-side keyed-by-index step
whenever the fragment's index is at most the current slot count, and the
slot count grows by one exactly when a new index arrives. -/
theorem applyDelta_eq_spec (calls : List OToolCall) (d : OTCDelta)
    (h : d.index ≤ calls.length) :
    applyDelta calls d = .ok (specApplyDelta calls d) ∧
    (specApplyDelta calls d).length =
      (if d.index = calls.length then calls.length + 1 else calls.length) := by
  rcases Nat.lt_or_ge d.index calls.length with hlt | hge
  · have hcond : ¬ calls.length ≤ d.index := Nat.not_le.mpr hlt
    obtain ⟨tc, htc⟩ : ∃ tc, calls.get? d.index = some tc := by
      cases hg : calls.get? d.index with
      | none => exact absurd (List.get?_eq_none.mp hg) hcond
      | some tc => exact ⟨tc, rfl⟩
    constructor
    · simp only [applyDelta, specApplyDelta, if_neg hcond, htc]
    · simp only [specApplyDelta, if_neg hcond, htc, List.length_set,
        if_neg (Nat.ne_of_lt hlt)]
  · have heq : d.index = calls.length := Nat.le_antisymm h hge
    have hcond : calls.length ≤ d.index := hge
    have hrep : d.index + 1 - calls.length = 1 := by omega
    have hget : (calls ++ [emptyToolCall]).get? d.index = some emptyToolCall := by
      rw [heq]
      exact List.get?_concat_length calls emptyToolCall
    constructor
    · simp only [applyDelta, specApplyDelta, if_pos hcond, hrep,
        List.replicate_one, hget]
    · simp only [specApplyDelta, if_pos hcond, hrep, List.replicate_one, hget,
        List.length_set, List.length_append, List.length_singleton, if_pos heq]

/-- Folding a dense fragment stream never raises and agrees with the
spec-side accumulation. -/
theorem foldlM_applyDelta_dense :
    ∀ (ds : List OTCDelta) (calls : List OToolCall),
      denseIdx calls.length ds = true →
      List.foldlM applyDelta calls ds = .ok (List.foldl specApplyDelta calls ds) := by
  intro ds
  induction ds with
  | nil => intro calls _; rfl
  | cons d rest ih =>
    intro calls h
    simp only [denseIdx] at h
    by_cases hlt : d.index < calls.length
    · rw [if_pos hlt] at h
      obtain ⟨hstep, hlen⟩ := applyDelta_eq_spec calls d (Nat.le_of_lt hlt)
      have hlen' : (specApplyDelta calls d).length = calls.length := by
        rw [hlen, if_neg (Nat.ne_of_lt hlt)]
      simp only [List.foldlM_cons, List.foldl_cons, hstep]
      show List.foldlM applyDelta (specApplyDelta calls d) rest = _
      exact ih (specApplyDelta calls d) (by rw [hlen']; exact h)
    · rw [if_neg hlt] at h
      by_cases heq : d.index = calls.length
      · rw [if_pos heq] at h
        obtain ⟨hstep, hlen⟩ := applyDelta_eq_spec calls d (Nat.le_of_eq heq)
        have hlen' : (specApplyDelta calls d).length = calls.length + 1 := by
          rw [hlen, if_pos heq]
        simp only [List.foldlM_cons, List.foldl_cons, hstep]
        show List.foldlM applyDelta (specApplyDelta calls d) rest = _
        exact ih (specApplyDelta calls d) (by rw [hlen']; exact h)
      · rw [if_neg heq] at h
        exact absurd h (by simp)

/-- Counterexample to claim C6 as stated: a fragment stream whose first
fragment is addressed to the not-yet-seen index 1 does not get a fresh
slot keyed by that index — the accumulator appends a single fresh slot
(which lands at index 0) and the subsequent index access raises
`IndexError`, so no call is reconstructed at all. -/
theorem c6_sparse_index_raises_counterexample :
    applyDeltas [{ index := 1, id := some "x", fname := some "T", args := none }] =
      .error "IndexError: list index out of range" := by decide

/-- Claim C6 (amended): for every fragment stream whose indices are
dense — each fragment's index is at most the number of slots already
created, the shape the delta-API wire actually produces — accumulation
never raises and agrees with the spec's keyed-by-index reconstruction:
each fragment appends its identifier/name/argument pieces to the slot at
its index, a new slot being created when the index equals the slot
count.  The §8 two-fragment Bash split reconstructs a single call named
`Bash` whose argument string decodes to the mapping {command: ls}. -/
theorem c6_dense_delta_accumulation (ds : List OTCDelta)
    (h : denseIdx 0 ds = true) :
    applyDeltas ds = .ok (specApplyDeltas ds) ∧
    (∀ (tc : OToolCall) (d : OTCDelta),
      updToolCall tc d = { id := tc.id ++ d.id.getD "",
                           fname := tc.fname ++ d.fname.getD "",
                           args := tc.args ++ d.args.getD "" }) ∧
    applyDeltas (oBashDelta1.tool_calls ++ oBashDelta2.tool_calls) =
      .ok [{ id := "call_1", fname := "Bash", args := "\x7b\"command\":\"ls\"\x7d" }] ∧
    jsonLoadsFlat "\x7b\"command\":\"ls\"\x7d" = some [("command", "ls")] := by
  refine ⟨foldlM_applyDelta_dense ds [] h, ?_, by decide, by decide⟩
  intro tc d
  have hgetD : ∀ o : Option String, pyTruthy o = false → o.getD "" = "" := by
    intro o ho
    cases o with
    | none => rfl
    | some v =>
      by_cases hv : v = ""
      · rw [hv]; rfl
      · exact absurd ho (by simp [pyTruthy, hv])
  cases tc with
  | mk tid tf ta =>
    rcases d with ⟨i, di, df, da⟩
    simp only [updToolCall]
    rcases Bool.eq_false_or_eq_true (pyTruthy di) with h1 | h1 <;>
      rcases Bool.eq_false_or_eq_true (pyTruthy df) with h2 | h2 <;>
      rcases Bool.eq_false_or_eq_true (pyTruthy da) with h3 | h3 <;>
      simp [h1, h2, h3, hgetD, String.append_empty]

/-- Witness for C6 (amended) at the §8 fragment stream. -/
theorem c6_dense_delta_accumulation_witness :
    denseIdx 0 (oBashDelta1.tool_calls ++ oBashDelta2.tool_calls) = true ∧
    applyDeltas (oBashDelta1.tool_calls ++ oBashDelta2.tool_calls) =
      .ok (specApplyDeltas (oBashDelta1.tool_calls ++ oBashDelta2.tool_calls)) ∧
    updToolCall { id := "a", fname := "b", args := "c" }
        { index := 0, id := some "x", fname := none, args := some "y" } =
      { id := "a" ++ (some "x").getD "", fname := "b" ++ (none : Option String).getD "",
        args := "c" ++ (some "y").getD "" } ∧
    jsonLoadsFlat "\x7b\"command\":\"ls\"\x7d" = some [("command", "ls")] := by
  have h := c6_dense_delta_accumulation
    (oBashDelta1.tool_calls ++ oBashDelta2.tool_calls) (by decide)
  exact ⟨by decide, h.1,
    h.2.1 { id := "a", fname := "b", args := "c" }
      { index := 0, id := some "x", fname := none, args := some "y" }, h.2.2.2⟩

/-! ## C3 — construction-time key handling -/

/-- Counterexample to claim C3 as stated: with no provider key available
anywhere (empty option overrides, empty process environment),
constructing the OpenAI-style adapter does not fail — the missing key is
silently replaced by the literal `"dummy-key"` and construction
succeeds. -/
theorem c3_openai_missing_key_constructs_counterexample :
    openaiApiKey (some []) (fun _ => none) = none ∧
    openaiConstruct true { model := "glm-4", system_prompt := "p", env := some [] }
      (fun _ => none) = .ok "dummy-key" := by
  exact ⟨by decide, by decide⟩

/-- Claim C3 (amended): when no truthy key is available, the
Gemini-style adapter fails at construction with the `ValueError`; the
OpenAI-style adapter does not fail for a missing key — it substitutes
the literal `"dummy-key"` and constructs; its construction is fatal only
when the `openai` dependency is missing. -/
theorem c3_gemini_fails_openai_defaults (opts : AgentOptions)
    (osEnv : String → Option String)
    (hg : geminiApiKey opts.env osEnv = none)
    (ho : openaiApiKey opts.env osEnv = none) :
    geminiConstruct opts osEnv =
      .error "GEMINI_API_KEY or GOOGLE_API_KEY must be provided" ∧
    openaiConstruct true opts osEnv = .ok "dummy-key" ∧
    openaiConstruct false opts osEnv =
      .error "openai package not installed. Run 'pip install openai'" := by
  refine ⟨?_, ?_, ?_⟩
  · simp [geminiConstruct, hg]
  · simp [openaiConstruct, ho]
  · simp [openaiConstruct]

/-- Witness for C3 (amended) at a concrete empty environment. -/
theorem c3_gemini_fails_openai_defaults_witness :
    geminiApiKey (some []) (fun _ => none) = none ∧
    openaiApiKey (some []) (fun _ => none) = none ∧
    geminiConstruct { model := "gemini-pro", system_prompt := "p", env := some [] }
        (fun _ => none) =
      .error "GEMINI_API_KEY or GOOGLE_API_KEY must be provided" ∧
    openaiConstruct true { model := "gemini-pro", system_prompt := "p", env := some [] }
        (fun _ => none) = .ok "dummy-key" ∧
    openaiConstruct false { model := "gemini-pro", system_prompt := "p", env := some [] }
        (fun _ => none) =
      .error "openai package not installed. Run 'pip install openai'" := by
  have h := c3_gemini_fails_openai_defaults
    { model := "gemini-pro", system_prompt := "p", env := some [] }
    (fun _ => none) (by decide) (by decide)
  exact ⟨by decide, by decide, h.1, h.2.1, h.2.2⟩

/-! ## C2 — registered tool schemas -/

/-- The names one `allowed_tools` entry contributes in the Gemini
adapter: the entry itself when recognised, nothing otherwise. -/
theorem geminiToolBlock_names (a : String) :
    (geminiToolBlock a).map (·.name) =
      (if supportedTools.contains a then [a] else []) := by
  by_cases h1 : a = "Read"
  · subst h1; decide
  by_cases h2 : a = "Write"
  · subst h2; decide
  by_cases h3 : a = "Edit"
  · subst h3; decide
  by_cases h4 : a = "Glob"
  · subst h4; decide
  by_cases h5 : a = "Grep"
  · subst h5; decide
  by_cases h6 : a = "Bash"
  · subst h6; decide
  simp [geminiToolBlock, supportedTools, h1, h2, h3, h4, h5, h6]

/-- Same for the OpenAI adapter. -/
theorem openaiToolBlock_names (a : String) :
    (openaiToolBlock a).map (·.name) =
      (if supportedTools.contains a then [a] else []) := by
  by_cases h1 : a = "Read"
  · subst h1; decide
  by_cases h2 : a = "Write"
  · subst h2; decide
  by_cases h3 : a = "Edit"
  · subst h3; decide
  by_cases h4 : a = "Glob"
  · subst h4; decide
  by_cases h5 : a = "Grep"
  · subst h5; decide
  by_cases h6 : a = "Bash"
  · subst h6; decide
  simp [openaiToolBlock, supportedTools, h1, h2, h3, h4, h5, h6]

/-- Every schema a Gemini block contributes carries the amended
parameter contract for its name. -/
theorem geminiToolBlock_params (a : String) :
    ∀ s ∈ geminiToolBlock a, schemaParams s = (registeredToolParams s.name).getD [] := by
  by_cases h1 : a = "Read"
  · subst h1; decide
  by_cases h2 : a = "Write"
  · subst h2; decide
  by_cases h3 : a = "Edit"
  · subst h3; decide
  by_cases h4 : a = "Glob"
  · subst h4; decide
  by_cases h5 : a = "Grep"
  · subst h5; decide
  by_cases h6 : a = "Bash"
  · subst h6; decide
  simp [geminiToolBlock, h1, h2, h3, h4, h5, h6]

/-- Same for the OpenAI adapter. -/
theorem openaiToolBlock_params (a : String) :
    ∀ s ∈ openaiToolBlock a, schemaParams s = (registeredToolParams s.name).getD [] := by
  by_cases h1 : a = "Read"
  · subst h1; decide
  by_cases h2 : a = "Write"
  · subst h2; decide
  by_cases h3 : a = "Edit"
  · subst h3; decide
  by_cases h4 : a = "Glob"
  · subst h4; decide
  by_cases h5 : a = "Grep"
  · subst h5; decide
  by_cases h6 : a = "Bash"
  · subst h6; decide
  simp [openaiToolBlock, h1, h2, h3, h4, h5, h6]

/-- Flat-mapping a recognise-or-drop block is filtering. -/
theorem flatMap_if_singleton (p : String → Bool) :
    ∀ ts : List String, (ts.flatMap (fun a => if p a then [a] else [])) = ts.filter p := by
  intro ts
  induction ts with
  | nil => rfl
  | cons a t ih =>
    by_cases h : p a = true <;> simp [List.flatMap_cons, List.filter_cons, h, ih]

/-- Counterexample to claim C2 as stated: the schema both adapters
register for `Glob` has parameter set {pattern}, not the §6 contract
{pattern, root_dir}; the `Grep` schema likewise omits `root_dir`. -/
theorem c2_glob_grep_schema_missing_root_dir_counterexample :
    (geminiToolDecls ["Glob"]).map (fun s => s.properties.map Prod.fst) = [["pattern"]] ∧
    (openaiToolDecls ["Glob"]).map (fun s => s.properties.map Prod.fst) = [["pattern"]] ∧
    (specToolParams "Glob").map (fun l => l.map Prod.fst) = some ["pattern", "root_dir"] ∧
    (geminiToolDecls ["Grep"]).map (fun s => s.properties.map Prod.fst) = [["query", "pattern"]] ∧
    (openaiToolDecls ["Grep"]).map (fun s => s.properties.map Prod.fst) = [["query", "pattern"]] ∧
    (specToolParams "Grep").map (fun l => l.map Prod.fst) =
      some ["query", "pattern", "root_dir"] ∧
    (["pattern"] : List String) ≠ ["pattern", "root_dir"] ∧
    (["query", "pattern"] : List String) ≠ ["query", "pattern", "root_dir"] := by
  decide

/-- Claim C2 (amended): for every enabled tool list, each adapter
registers exactly one schema per recognised entry, in iteration order —
so a duplicate-free enabled set registers no tool twice and no name
outside the six supported tools; each registered schema carries exactly
the §6 parameter names for `Read`, `Write`, `Edit` and `Bash`, while the
registered `Glob` is {pattern} and the registered `Grep` is
{query, pattern?} — both omitting the optional `root_dir` of §6. -/
theorem c2_registered_schemas (ts : List String) (hnd : ts.Nodup) :
    (geminiToolDecls ts).map (·.name) =
      ts.filter (fun n => supportedTools.contains n) ∧
    (openaiToolDecls ts).map (·.name) =
      ts.filter (fun n => supportedTools.contains n) ∧
    (∀ s ∈ geminiToolDecls ts, schemaParams s = (registeredToolParams s.name).getD []) ∧
    (∀ s ∈ openaiToolDecls ts, schemaParams s = (registeredToolParams s.name).getD []) ∧
    ((geminiToolDecls ts).map (·.name)).Nodup ∧
    ((openaiToolDecls ts).map (·.name)).Nodup ∧
    (∀ n ∈ (["Read", "Write", "Edit", "Bash"] : List String),
      registeredToolParams n = specToolParams n) := by
  have hg : (geminiToolDecls ts).map (·.name) =
      ts.filter (fun n => supportedTools.contains n) := by
    unfold geminiToolDecls
    rw [List.map_flatMap]
    have : (fun a => (geminiToolBlock a).map (·.name)) =
        (fun a => if supportedTools.contains a then [a] else []) := by
      funext a
      exact geminiToolBlock_names a
    rw [this]
    exact flatMap_if_singleton _ ts
  have ho : (openaiToolDecls ts).map (·.name) =
      ts.filter (fun n => supportedTools.contains n) := by
    unfold openaiToolDecls
    rw [List.map_flatMap]
    have : (fun a => (openaiToolBlock a).map (·.name)) =
        (fun a => if supportedTools.contains a then [a] else []) := by
      funext a
      exact openaiToolBlock_names a
    rw [this]
    exact flatMap_if_singleton _ ts
  refine ⟨hg, ho, ?_, ?_, ?_, ?_, by decide⟩
  · intro s hs
    obtain ⟨a, _, hins⟩ := List.mem_flatMap.mp hs
    exact geminiToolBlock_params a s hins
  · intro s hs
    obtain ⟨a, _, hins⟩ := List.mem_flatMap.mp hs
    exact openaiToolBlock_params a s hins
  · rw [hg]
    exact hnd.filter _
  · rw [ho]
    exact hnd.filter _

/-- Witness for C2 (amended) at a concrete enabled tool set. -/
theorem c2_registered_schemas_witness :
    (["Read", "Glob", "Grep", "Bash"] : List String).Nodup ∧
    (geminiToolDecls ["Read", "Glob", "Grep", "Bash"]).map (·.name) =
      (["Read", "Glob", "Grep", "Bash"] : List String).filter
        (fun n => supportedTools.contains n) ∧
    (openaiToolDecls ["Read", "Glob", "Grep", "Bash"]).map (·.name) =
      (["Read", "Glob", "Grep", "Bash"] : List String).filter
        (fun n => supportedTools.contains n) ∧
    ((geminiToolDecls ["Read", "Glob", "Grep", "Bash"]).map (·.name)).Nodup := by
  have h := c2_registered_schemas ["Read", "Glob", "Grep", "Bash"] (by decide)
  exact ⟨by decide, h.1, h.2.1, h.2.2.2.2.1⟩

/-! ## C4 — failure channels of the built-in tools -/

/-- Counterexample to claim C4 as stated: `grep_files` compiles its
query outside any exception handler, so an invalid regular expression —
Python `re.compile("(")` raises `re.error` — escapes as an exception
instead of being returned as an `Error:`-prefixed string. -/
theorem c4_grep_invalid_regex_raises_counterexample :
    grep_files reCompileCE (fun _ _ => .ok []) "(" "*" "." =
      .error (.reError "missing ), unterminated subpattern at position 0") := by
  decide

/-- Claim C4 (amended): `read_file`, `write_file`, `edit_file` and
`execute_bash` terminate without raising, reporting failures as error
strings (`Error: ...` on the documented paths; `Error executing
command: ...` on the wrapped-exception path); `glob_files` returns the
match list and propagates any `Path.rglob` exception uncaught; and
`grep_files` propagates any `re.compile` failure uncaught, so an invalid
regex query raises instead of producing an error string. -/
theorem c4_builtin_tool_error_channels
    (fs : List (String × String)) (fp fp2 c tgt rep : String)
    (sl el : Option Int)
    (reEng : String → Except PyErr (String → Bool))
    (rglob : String → String → Except PyErr (List REntry))
    (q pat root cmd reason msg procCwd : String) (cwd : Option String)
    (e1 e2 : PyErr)
    (vDeny vAllow : String → String → Bool × String)
    (rTimeout rExn : String → Option String → BashOutcome)
    (hfp : fsRead fs fp = none)
    (hre : reEng q = .error e1)
    (hrg : rglob pat root = .error e2)
    (hvd : vDeny cmd (pyOrD cwd procCwd) = (false, reason))
    (hva : vAllow cmd (pyOrD cwd procCwd) = (true, ""))
    (hrt : rTimeout cmd cwd = .timeout)
    (hrx : rExn cmd cwd = .exn msg) :
    read_file fs fp sl el = "Error: File not found: " ++ fp ∧
    write_file fs fp2 c = ("Successfully wrote to " ++ fp2, fsWrite fs fp2 c) ∧
    edit_file fs fp tgt rep = ("Error: File not found: " ++ fp, fs) ∧
    glob_files rglob pat root = .error e2 ∧
    grep_files reEng rglob q pat root = .error e1 ∧
    execute_bash vDeny rTimeout procCwd cmd cwd =
      "Error: Command blocked by security policy: " ++ reason ∧
    execute_bash vAllow rTimeout procCwd cmd cwd =
      "Error: Command timed out after 300 seconds." ∧
    execute_bash vAllow rExn procCwd cmd cwd = "Error executing command: " ++ msg := by
  refine ⟨?_, rfl, ?_, ?_, ?_, ?_, ?_, ?_⟩
  · simp [read_file, hfp]
  · simp [edit_file, hfp]
  · simp [glob_files, hrg, Except.map]
  · simp [grep_files, hre]
  · simp [execute_bash, hvd]
  · simp [execute_bash, hva, hrt]
  · simp [execute_bash, hva, hrx]

/-- Witness for C4 (amended) at concrete oracles. -/
theorem c4_builtin_tool_error_channels_witness :
    fsRead [] "nope.txt" = none ∧
    reCompileCE "(" = Except.error (PyErr.reError "missing ), unterminated subpattern at position 0") ∧
    read_file [] "nope.txt" none none = "Error: File not found: " ++ "nope.txt" ∧
    edit_file [] "nope.txt" "t" "r" = ("Error: File not found: " ++ "nope.txt", []) ∧
    glob_files (fun _ _ => .error (.fsError "boom")) "*" "." = .error (.fsError "boom") ∧
    grep_files reCompileCE (fun _ _ => .error (.fsError "boom")) "(" "*" "." =
      .error (.reError "missing ), unterminated subpattern at position 0") ∧
    execute_bash (fun _ _ => (false, "nope")) (fun _ _ => .timeout) "/proj" "ls" none =
      "Error: Command blocked by security policy: " ++ "nope" ∧
    execute_bash (fun _ _ => (true, "")) (fun _ _ => .timeout) "/proj" "ls" none =
      "Error: Command timed out after 300 seconds." ∧
    execute_bash (fun _ _ => (true, "")) (fun _ _ => .exn "oops") "/proj" "ls" none =
      "Error executing command: " ++ "oops" := by
  have h := c4_builtin_tool_error_channels [] "nope.txt" "w.txt" "c" "t" "r" none none
    reCompileCE (fun _ _ => .error (.fsError "boom")) "(" "*" "." "ls" "nope" "oops"
    "/proj" none (.reError "missing ), unterminated subpattern at position 0")
    (.fsError "boom") (fun _ _ => (false, "nope")) (fun _ _ => (true, ""))
    (fun _ _ => .timeout) (fun _ _ => .exn "oops")
    (by decide) rfl rfl (by decide) (by decide) rfl rfl
  exact ⟨by decide, rfl, h.1, h.2.2.1, h.2.2.2.1, h.2.2.2.2.1,
    h.2.2.2.2.2.1, h.2.2.2.2.2.2.1, h.2.2.2.2.2.2.2⟩

/-! ## C1 — the tool loops consult no turn budget -/

/-- Chunk re-emissions are not backend requests. -/
theorem countP_gIsReq_yieldChunk (chunks : List GChunk) :
    (chunks.map GEv.yieldChunk).countP gIsReq = 0 := by
  apply List.countP_eq_zero.mpr
  intro e he
  obtain ⟨c, _, rfl⟩ := List.mem_map.mp he
  simp [gIsReq]

/-- Tool outcomes are not backend requests. -/
theorem countP_gIsReq_yieldOutcome (rs : List String) :
    (rs.map GEv.yieldOutcome).countP gIsReq = 0 := by
  apply List.countP_eq_zero.mpr
  intro e he
  obtain ⟨c, _, rfl⟩ := List.mem_map.mp he
  simp [gIsReq]

/-- Stream processing of one delta-API pass emits no backend request. -/
theorem oRunPassAux_countP_req :
    ∀ (ds : List ODelta) (content : String) (calls : List OToolCall) (evs : List OEv),
      ((oRunPassAux content calls evs ds).2.2.1).countP oIsReq = evs.countP oIsReq := by
  intro ds
  induction ds with
  | nil => intro content calls evs; rfl
  | cons d rest ih =>
    intro content calls evs
    simp only [oRunPassAux]
    cases hf : d.tool_calls.foldlM applyDelta calls with
    | error e =>
      rcases Bool.eq_false_or_eq_true (pyTruthy d.content) with hc | hc <;>
        simp [hc, hf, List.countP_append, oIsReq]
    | ok calls' =>
      rcases Bool.eq_false_or_eq_true (pyTruthy d.content) with hc | hc
      · simp only [hc, if_true, hf]
        rw [ih]
        simp [List.countP_append, oIsReq]
      · simp only [hc, Bool.false_eq_true, if_false, hf]
        rw [ih]

/-- Tool execution in the delta-API adapter emits no backend request. -/
theorem oHandleToolCalls_countP_req (et : OToolCall → String) :
    ∀ (calls : List OToolCall) (hist : List OMsg),
      ((oHandleToolCalls et calls hist).1).countP oIsReq = 0 := by
  intro calls
  induction calls with
  | nil => intro hist; rfl
  | cons tc rest ih =>
    intro hist
    simp only [oHandleToolCalls, List.countP_cons]
    rw [ih]
    simp [oIsReq]

/-- Counterexample to claim C1 as stated: with the turn budget
configured to one round, a backend that keeps requesting tools drives
both in-process tool loops past the budget — three round-trips for the
chat-API adapter and two for the delta-API adapter within two unrolled
iterations, with the loops still running — and no adapter-generated
`TextDelta` (in particular no truncation notice) is emitted. -/
theorem c1_no_turn_budget_counterexample :
    cfgBudgetOne.max_turns = 1 ∧
    geminiRoundTrips gAlwaysToolPasses gExecConst 2 = 3 ∧
    geminiRoundTrips gAlwaysToolPasses gExecConst 2 > cfgBudgetOne.max_turns ∧
    (geminiReceive gAlwaysToolPasses gExecConst 2 0).all (fun e => !(gHasText e)) = true ∧
    openaiRoundTrips oAlwaysToolPasses oExecConst 2 (openaiInitHistory "sp") = 2 ∧
    openaiRoundTrips oAlwaysToolPasses oExecConst 2 (openaiInitHistory "sp") >
      cfgBudgetOne.max_turns ∧
    ((openaiReceive oAlwaysToolPasses oExecConst 2 0 (openaiInitHistory "sp")).1).all
      (fun e => !(oHasText e)) = true ∧
    (openaiReceive oAlwaysToolPasses oExecConst 2 0 (openaiInitHistory "sp")).2.2 = false := by
  decide

/-- Claim C1 (amended): neither in-process tool loop consults
`max_turns` and neither emits a truncation notice; the loops iterate
exactly as long as passes keep yielding tool calls — `k` unrolled
iterations of an always-tool-requesting backend contain exactly `k`
backend requests, for every `k` — and a turn ends only when a pass
yields no tool calls (after its single request in the delta-API case,
with no request issued by the chat-API loop). -/
theorem c1_loops_unbounded (k : Nat)
    (passesG : Nat → List GChunk) (execG : GFnCall → String)
    (passesO : Nat → List ODelta) (execO : OToolCall → String)
    (hG : ∀ i, passesG i ≠ [] ∧ collectFCs (passesG i) ≠ [])
    (hO : ∀ i, (oRunPass (passesO i)).2.1 ≠ [] ∧ (oRunPass (passesO i)).2.2.2 = false) :
    (∀ j, (geminiReceive passesG execG k j).countP gIsReq = k) ∧
    (∀ j (hist : List OMsg),
      ((openaiReceive passesO execO k j hist).1).countP oIsReq = k) ∧
    (∀ (passes2 : Nat → List GChunk) (j : Nat), collectFCs (passes2 j) = [] →
      (geminiReceive passes2 execG (k + 1) j).countP gIsReq = 0) ∧
    (∀ (passes3 : Nat → List ODelta) (j : Nat) (hist : List OMsg),
      (oRunPass (passes3 j)).2.1 = [] → (oRunPass (passes3 j)).2.2.2 = false →
      ((openaiReceive passes3 execO (k + 1) j hist).1).countP oIsReq = 1) := by
  refine ⟨?_, ?_, ?_, ?_⟩
  · induction k with
    | zero => intro j; rfl
    | succ k ih =>
      intro j
      simp only [geminiReceive]
      rw [if_neg (by simp [List.isEmpty_iff, (hG j).1]),
          if_neg (by simp [List.isEmpty_iff, (hG j).2])]
      simp only [List.countP_append, List.countP_cons, countP_gIsReq_yieldChunk,
        countP_gIsReq_yieldOutcome, ih (j + 1)]
      simp [gIsReq]
      omega
  · induction k with
    | zero => intro j hist; rfl
    | succ k ih =>
      intro j hist
      simp only [openaiReceive]
      rw [if_neg (by simp [(hO j).2])]
      rw [if_neg (by simp [List.isEmpty_iff, (hO j).1])]
      simp only [List.countP_cons, List.countP_append, oRunPass,
        oRunPassAux_countP_req, oHandleToolCalls_countP_req, ih (j + 1)]
      simp [oIsReq]
      omega
  · intro passes2 j hfcs
    simp only [geminiReceive]
    by_cases hch : (passes2 j).isEmpty = true
    · rw [if_pos hch]
      exact countP_gIsReq_yieldChunk _
    · rw [if_neg hch, if_pos (by simp [List.isEmpty_iff, hfcs])]
      exact countP_gIsReq_yieldChunk _
  · intro passes3 j hist hcalls herr
    simp only [openaiReceive]
    rw [if_neg (by simp [herr])]
    rw [if_pos (by simp [List.isEmpty_iff, hcalls])]
    simp only [List.countP_cons, oRunPass, oRunPassAux_countP_req]
    simp [oIsReq]

/-- Witness for C1 (amended) at concrete backends. -/
theorem c1_loops_unbounded_witness :
    (geminiReceive gAlwaysToolPasses gExecConst 2 0).countP gIsReq = 2 ∧
    ((openaiReceive oAlwaysToolPasses oExecConst 2 0 []).1).countP oIsReq = 2 ∧
    (geminiReceive (fun _ => []) gExecConst 3 0).countP gIsReq = 0 ∧
    ((openaiReceive (fun _ => []) oExecConst 3 0 []).1).countP oIsReq = 1 := by
  have h := c1_loops_unbounded 2 gAlwaysToolPasses gExecConst
    oAlwaysToolPasses oExecConst
    (by
      intro i
      constructor
      · show ([gToolOnlyChunk] : List GChunk) ≠ []
        decide
      · show collectFCs [gToolOnlyChunk] ≠ []
        decide)
    (by
      intro i
      constructor
      · show (oRunPass [oBashDelta1, oBashDelta2]).2.1 ≠ []
        decide
      · show (oRunPass [oBashDelta1, oBashDelta2]).2.2.2 = false
        decide)
  exact ⟨h.1 0, h.2.1 0 [], h.2.2.1 (fun _ => []) 0 (by decide),
    h.2.2.2 (fun _ => []) 0 [] (by decide) (by decide)⟩

/-! ## C5 — outcome envelopes versus the next backend request -/

/-- Counterexample to claim C5 as stated: in the §8 scenario (one pass
with a single `Read` call and no text, then a text-only pass), the
adapter issues the second backend request — inside
`_handle_tool_calls`, which sends the packaged results before
returning — strictly before the `ToolOutcome` envelope reaches the
caller: the request event precedes the outcome event in the trace. -/
theorem c5_outcome_after_request_counterexample :
    geminiReceive gScenarioPasses gExecConst 3 0 =
      [GEv.yieldChunk gToolOnlyChunk, GEv.sendReq 1,
       GEv.yieldOutcome "file contents", GEv.yieldChunk gTextChunk] ∧
    (geminiReceive gScenarioPasses gExecConst 3 0).indexOf (GEv.sendReq 1) <
      (geminiReceive gScenarioPasses gExecConst 3 0).indexOf
        (GEv.yieldOutcome "file contents") := by
  decide

/-- Claim C5 (amended): in the chat-API adapter, a pass that collected
tool calls first re-emits its chunks, then issues the next backend
request (carrying the packaged tool results), then yields exactly one
`ToolOutcome` envelope per collected call — all before any envelope of
the next pass's stream. -/
theorem c5_outcomes_follow_request (passes : Nat → List GChunk)
    (execTool : GFnCall → String) (fuel i : Nat)
    (hne : passes i ≠ []) (hfcs : collectFCs (passes i) ≠ []) :
    geminiReceive passes execTool (fuel + 1) i =
      (passes i).map GEv.yieldChunk ++
        GEv.sendReq (i + 1) ::
          (((collectFCs (passes i)).map execTool).map GEv.yieldOutcome ++
            geminiReceive passes execTool fuel (i + 1)) ∧
    (((collectFCs (passes i)).map execTool).map GEv.yieldOutcome).length =
      (collectFCs (passes i)).length := by
  constructor
  · simp only [geminiReceive]
    rw [if_neg (by simp [List.isEmpty_iff, hne]),
        if_neg (by simp [List.isEmpty_iff, hfcs])]
    simp [List.cons_append]
  · simp

/-- Witness for C5 (amended) at the §8 scenario. -/
theorem c5_outcomes_follow_request_witness :
    gScenarioPasses 0 ≠ [] ∧
    collectFCs (gScenarioPasses 0) ≠ [] ∧
    geminiReceive gScenarioPasses gExecConst 3 0 =
      (gScenarioPasses 0).map GEv.yieldChunk ++
        GEv.sendReq 1 ::
          (((collectFCs (gScenarioPasses 0)).map gExecConst).map GEv.yieldOutcome ++
            geminiReceive gScenarioPasses gExecConst 2 1) ∧
    (((collectFCs (gScenarioPasses 0)).map gExecConst).map GEv.yieldOutcome).length =
      (collectFCs (gScenarioPasses 0)).length := by
  have h := c5_outcomes_follow_request gScenarioPasses gExecConst 2 0
    (by decide) (by decide)
  exact ⟨by decide, by decide, h.1, h.2⟩

/-! ## C9 — subprocess adapter command-line construction -/

/-- A successful placeholder match returns one of the table's values
and the matched pattern's length, the pattern being a prefix of the
input. -/
theorem findPh_some (subs : List (List Char × List Char)) (l v : List Char)
    (k : Nat) (h : findPh subs l = some (v, k)) :
    ∃ p, (p, v) ∈ subs ∧ p.isPrefixOf l = true ∧ k = p.length := by
  induction subs with
  | nil => simp [findPh] at h
  | cons pv ps ih =>
    rcases pv with ⟨p, v'⟩
    simp only [findPh] at h
    by_cases hp : p.isPrefixOf l = true
    · rw [if_pos hp] at h
      have h' := Option.some.inj h
      have hv : v' = v := congrArg Prod.fst h'
      have hk : p.length = k := congrArg Prod.snd h'
      subst hv
      exact ⟨p, List.mem_cons_self _ _, hp, hk.symm⟩
    · rw [if_neg hp] at h
      obtain ⟨p', hmem, hpre, hk⟩ := ih h
      exact ⟨p', List.mem_cons_of_mem _ hmem, hpre, hk⟩

/-- Fuel invariance of `pyFormatAux` for a table of nonempty patterns:
any two fuels at least the input length agree. -/
theorem pyFormatAux_fuel (subs : List (List Char × List Char))
    (hne : ∀ pv ∈ subs, pv.1 ≠ []) :
    ∀ (n : Nat) (l : List Char) (f1 f2 : Nat), l.length ≤ n → l.length ≤ f1 →
      l.length ≤ f2 → pyFormatAux subs f1 l = pyFormatAux subs f2 l := by
  intro n
  induction n with
  | zero =>
    intro l f1 f2 hl _ _
    have hnil : l = [] := List.eq_nil_of_length_eq_zero (Nat.le_zero.mp hl)
    subst hnil
    cases f1 <;> cases f2 <;> rfl
  | succ n ih =>
    intro l f1 f2 hl h1 h2
    match l, f1, f2 with
    | [], f1, f2 => cases f1 <;> cases f2 <;> rfl
    | c :: cs, f1 + 1, f2 + 1 =>
      simp only [List.length_cons, Nat.succ_le_succ_iff] at hl h1 h2
      simp only [pyFormatAux]
      cases hf : findPh subs (c :: cs) with
      | some vk =>
        rcases vk with ⟨v, k⟩
        obtain ⟨p, hmem, hpre, hk⟩ := findPh_some subs _ v k hf
        have hk1 : 1 ≤ k := by
          rw [hk]
          exact List.length_pos.mpr (hne _ hmem)
        have hdl : ((c :: cs).drop k).length ≤ cs.length := by
          simp only [List.length_drop, List.length_cons]
          omega
        dsimp only
        rw [ih _ _ _ (le_trans hdl hl) (le_trans hdl h1) (le_trans hdl h2)]
      | none =>
        dsimp only
        by_cases hb : c = obrace ∨ c = cbrace
        · rw [if_pos hb, if_pos hb]
        · rw [if_neg hb, if_neg hb, ih _ _ _ hl h1 h2]

/-- A pattern that contains no space matches at the head of
`l ++ ' ' :: u` exactly when it matches at the head of `l`. -/
theorem isPrefixOf_append_space (p l u : List Char) (hsp : ' ' ∉ p) :
    p.isPrefixOf (l ++ ' ' :: u) = p.isPrefixOf l := by
  by_cases h : p.isPrefixOf l = true
  · rw [h]
    exact List.isPrefixOf_iff_prefix.mpr
      ((List.isPrefixOf_iff_prefix.mp h).trans (List.prefix_append _ _))
  · have h' : p.isPrefixOf l = false := Bool.not_eq_true _ ▸ Bool.of_not_eq_true h
    rw [h']
    cases hL : p.isPrefixOf (l ++ ' ' :: u) with
    | false => rfl
    | true =>
      exfalso
      obtain ⟨r, hr⟩ := List.isPrefixOf_iff_prefix.mp hL
      by_cases hlen : p.length ≤ l.length
      · apply h
        apply List.isPrefixOf_iff_prefix.mpr
        have htake : (p ++ r).take p.length = p := by
          rw [List.take_append_eq_append_take, Nat.sub_self, List.take_zero,
            List.append_nil, List.take_length]
        have htake2 : (l ++ ' ' :: u).take p.length = l.take p.length := by
          rw [List.take_append_eq_append_take]
          have : p.length - l.length = 0 := by omega
          rw [this, List.take_zero, List.append_nil]
        have hptake : p = l.take p.length := by
          conv_lhs => rw [← htake]
          rw [hr, htake2]
        exact List.prefix_iff_eq_take.mpr hptake
      · push_neg at hlen
        have htk1 : (p ++ r).take (l.length + 1) = p.take (l.length + 1) := by
          rw [List.take_append_eq_append_take]
          have : l.length + 1 - p.length = 0 := by omega
          rw [this, List.take_zero, List.append_nil]
        have htk2 : (l ++ ' ' :: u).take (l.length + 1) = l ++ [' '] := by
          rw [List.take_append_eq_append_take]
          have h1 : l.take (l.length + 1) = l := List.take_of_length_le (by omega)
          have h2 : l.length + 1 - l.length = 1 := by omega
          rw [h1, h2]
          rfl
        have hsp' : ' ' ∈ p.take (l.length + 1) := by
          rw [← htk1, hr, htk2]
          simp
        exact hsp (List.take_subset _ _ hsp')

/-- Placeholder lookup is unaffected by text after a separating space,
for a table of space-free patterns. -/
theorem findPh_append_space (subs : List (List Char × List Char))
    (hsp : ∀ pv ∈ subs, ' ' ∉ pv.1) (l u : List Char) :
    findPh subs (l ++ ' ' :: u) = findPh subs l := by
  induction subs with
  | nil => rfl
  | cons pv ps ih =>
    rcases pv with ⟨p, v⟩
    simp only [findPh]
    rw [isPrefixOf_append_space p l u (hsp _ (List.mem_cons_self _ _))]
    rw [ih (fun q hq => hsp q (List.mem_cons_of_mem _ hq))]

/-- The placeholder table's patterns are nonempty. -/
theorem phList_nonempty (model pd sd sid : String) :
    ∀ pv ∈ phList model pd sd sid, pv.1 ≠ [] := by
  intro pv hmem
  simp only [phList, List.mem_cons, List.not_mem_nil, or_false] at hmem
  rcases hmem with rfl | rfl | rfl | rfl
  · show phModel ≠ []
    decide
  · show phProjectDir ≠ []
    decide
  · show phSpecDir ≠ []
    decide
  · show phSessionId ≠ []
    decide

/-- The placeholder table's patterns contain no space. -/
theorem phList_no_space (model pd sd sid : String) :
    ∀ pv ∈ phList model pd sd sid, ' ' ∉ pv.1 := by
  intro pv hmem
  simp only [phList, List.mem_cons, List.not_mem_nil, or_false] at hmem
  rcases hmem with rfl | rfl | rfl | rfl
  · show ' ' ∉ phModel
    decide
  · show ' ' ∉ phProjectDir
    decide
  · show ' ' ∉ phSpecDir
    decide
  · show ' ' ∉ phSessionId
    decide

/-- One `str.format` scan distributes over a space boundary: no
space-free placeholder can span it, so formatting `t ++ ' ' :: u`
formats the two parts independently. -/
theorem pyFmt_append_space (subs : List (List Char × List Char))
    (hne : ∀ pv ∈ subs, pv.1 ≠ []) (hsp : ∀ pv ∈ subs, ' ' ∉ pv.1) :
    ∀ (n : Nat) (t : List Char), t.length ≤ n → ∀ (u : List Char),
      pyFmt subs (t ++ ' ' :: u) =
        (pyFmt subs t).bind (fun a => (pyFmt subs (' ' :: u)).map (a ++ ·)) := by
  intro n
  induction n with
  | zero =>
    intro t hl u
    have hnil : t = [] := List.eq_nil_of_length_eq_zero (Nat.le_zero.mp hl)
    subst hnil
    simp only [List.nil_append]
    have h0 : pyFmt subs [] = some [] := rfl
    rw [h0]
    cases hx : pyFmt subs (' ' :: u) <;> simp [Option.bind, hx]
  | succ n ih =>
    intro t hl u
    match t with
    | [] =>
      simp only [List.nil_append]
      have h0 : pyFmt subs [] = some [] := rfl
      rw [h0]
      cases hx : pyFmt subs (' ' :: u) <;> simp [Option.bind, hx]
    | c :: t' =>
      have hlen' : t'.length ≤ n := by
        simpa using hl
      show pyFormatAux subs ((c :: (t' ++ ' ' :: u)).length) (c :: (t' ++ ' ' :: u)) = _
      simp only [List.length_cons, pyFormatAux]
      have hfb : findPh subs (c :: (t' ++ ' ' :: u)) = findPh subs (c :: t') := by
        have h := findPh_append_space subs hsp (c :: t') u
        simpa using h
      rw [hfb]
      cases hf : findPh subs (c :: t') with
      | none =>
        dsimp only
        by_cases hb : c = obrace ∨ c = cbrace
        · rw [if_pos hb]
          have hrhs : pyFmt subs (c :: t') = none := by
            show pyFormatAux subs ((c :: t').length) (c :: t') = none
            simp only [List.length_cons, pyFormatAux, hf]
            rw [if_pos hb]
          rw [hrhs]
          rfl
        · rw [if_neg hb]
          have hlhs : pyFormatAux subs ((t' ++ ' ' :: u).length) (t' ++ ' ' :: u) =
              pyFmt subs (t' ++ ' ' :: u) := rfl
          rw [hlhs, ih t' hlen' u]
          have hrhs : pyFmt subs (c :: t') = (pyFmt subs t').map (c :: ·) := by
            show pyFormatAux subs ((c :: t').length) (c :: t') = _
            simp only [List.length_cons, pyFormatAux, hf]
            rw [if_neg hb]
            rfl
          rw [hrhs]
          cases pyFmt subs t' <;> cases pyFmt subs (' ' :: u) <;> simp
      | some vk =>
        rcases vk with ⟨v, k⟩
        dsimp only
        obtain ⟨p, hmem, hpre, hk⟩ := findPh_some subs _ v k hf
        have hk1 : 1 ≤ k := by
          rw [hk]
          exact List.length_pos.mpr (hne _ hmem)
        have hkle : k ≤ (c :: t').length := by
          rw [hk]
          exact (List.isPrefixOf_iff_prefix.mp hpre).length_le
        have hdrop : (c :: (t' ++ ' ' :: u)).drop k = ((c :: t').drop k) ++ ' ' :: u := by
          have hco : c :: (t' ++ ' ' :: u) = (c :: t') ++ ' ' :: u := rfl
          rw [hco, List.drop_append_eq_append_drop]
          have hz : k - (c :: t').length = 0 := by omega
          rw [hz, List.drop_zero]
        rw [hdrop]
        have hfuel : pyFormatAux subs ((t' ++ ' ' :: u).length)
            (((c :: t').drop k) ++ ' ' :: u) =
            pyFmt subs (((c :: t').drop k) ++ ' ' :: u) := by
          apply pyFormatAux_fuel subs hne ((((c :: t').drop k) ++ ' ' :: u).length)
          · exact le_rfl
          · simp only [List.length_append, List.length_drop, List.length_cons]
            omega
          · exact le_rfl
        rw [hfuel]
        have ht2len : ((c :: t').drop k).length ≤ n := by
          simp only [List.length_drop, List.length_cons]
          omega
        rw [ih _ ht2len u]
        have hrhs : pyFmt subs (c :: t') =
            (pyFmt subs ((c :: t').drop k)).map (v ++ ·) := by
          show pyFormatAux subs ((c :: t').length) (c :: t') = _
          simp only [List.length_cons, pyFormatAux, hf]
          congr 1
          apply pyFormatAux_fuel subs hne (((c :: t').drop k).length)
          · exact le_rfl
          · simp only [List.length_drop, List.length_cons]
            omega
          · exact le_rfl
        rw [hrhs]
        cases pyFmt subs ((c :: t').drop k) <;> cases pyFmt subs (' ' :: u) <;>
          simp [List.append_assoc]

/-- Placeholder lookup fails at any head character other than `{`. -/
theorem findPh_phList_head (model pd sd sid : String) (c : Char)
    (rest : List Char) (hc : c ≠ obrace) :
    findPh (phList model pd sd sid) (c :: rest) = none := by
  have hb : ('\x7b' == c) = false := beq_eq_false_iff_ne.mpr (Ne.symm hc)
  simp [phList, findPh, phModel, phProjectDir, phSpecDir, phSessionId,
    List.isPrefixOf, hb]

/-- A non-matching, non-brace head character is copied through. -/
theorem pyFormatAux_plain_cons (subs : List (List Char × List Char)) (c : Char)
    (rest : List Char) (f : Nat) (hc1 : findPh subs (c :: rest) = none)
    (hc2 : ¬ (c = obrace ∨ c = cbrace)) :
    pyFormatAux subs (f + 1) (c :: rest) = (pyFormatAux subs f rest).map (c :: ·) := by
  simp only [pyFormatAux, hc1]
  rw [if_neg hc2]

/-- Formatting the auto-appended ` -s {sessionId}` suffix substitutes
the session value: the result is ` -s ` followed by it. -/
theorem pyFmt_session_suffix (model pd sd sid : String) :
    ∀ f, 15 ≤ f →
      pyFormatAux (phList model pd sd sid) f
        (' ' :: '-' :: 's' :: ' ' :: phSessionId) =
        some (' ' :: '-' :: 's' :: ' ' :: sid.data) := by
  intro f hf
  obtain ⟨f1, rfl⟩ : ∃ f1, f = f1 + 1 := ⟨f - 1, by omega⟩
  rw [pyFormatAux_plain_cons _ _ _ _
    (findPh_phList_head model pd sd sid ' ' _ (by decide)) (by decide)]
  obtain ⟨f2, rfl⟩ : ∃ f2, f1 = f2 + 1 := ⟨f1 - 1, by omega⟩
  rw [pyFormatAux_plain_cons _ _ _ _
    (findPh_phList_head model pd sd sid '-' _ (by decide)) (by decide)]
  obtain ⟨f3, rfl⟩ : ∃ f3, f2 = f3 + 1 := ⟨f2 - 1, by omega⟩
  rw [pyFormatAux_plain_cons _ _ _ _
    (findPh_phList_head model pd sd sid 's' _ (by decide)) (by decide)]
  obtain ⟨f4, rfl⟩ : ∃ f4, f3 = f4 + 1 := ⟨f3 - 1, by omega⟩
  rw [pyFormatAux_plain_cons _ _ _ _
    (findPh_phList_head model pd sd sid ' ' _ (by decide)) (by decide)]
  obtain ⟨f5, rfl⟩ : ∃ f5, f4 = f5 + 1 := ⟨f4 - 1, by omega⟩
  have hm : findPh (phList model pd sd sid) phSessionId =
      some (sid.data, phSessionId.length) := by
    simp only [phList, findPh]
    rw [if_neg (by decide), if_neg (by decide), if_neg (by decide), if_pos (by decide)]
  have hcons : phSessionId =
      '\x7b' :: 's' :: 'e' :: 's' :: 's' :: 'i' :: 'o' :: 'n' :: 'I' :: 'd' ::
        '\x7d' :: [] := rfl
  have hstep : pyFormatAux (phList model pd sd sid) (f5 + 1) phSessionId =
      some sid.data := by
    conv_lhs => rw [hcons]
    simp only [pyFormatAux]
    rw [← hcons, hm]
    have hnil : pyFormatAux (phList model pd sd sid) f5 [] = some [] := by
      cases f5 <;> rfl
    simp [List.drop_length, hnil]
  rw [hstep]
  rfl

/-- A non-quote character keeps the lexer outside quotes. -/
theorem shlexStep_quote_none (st : SState) (c : Char) (h : st.quote = none)
    (hc : ¬ (c = '"' ∨ c = squote)) : (shlexStep st c).quote = none := by
  simp only [shlexStep, h]
  by_cases hws : isShWs c = true
  · rw [if_pos hws]
  · rw [if_neg hws, if_neg hc]

/-- A quote-free input keeps the lexer outside quotes. -/
theorem shlexRun_no_quote (l : List Char)
    (hq : ∀ c ∈ l, ¬ (c = '"' ∨ c = squote)) :
    ∀ st : SState, st.quote = none → (l.foldl shlexStep st).quote = none := by
  induction l with
  | nil => intro st h; exact h
  | cons c cs ih =>
    intro st h
    simp only [List.foldl_cons]
    exact ih (fun d hd => hq d (List.mem_cons_of_mem _ hd)) _
      (shlexStep_quote_none st c h (hq c (List.mem_cons_self _ _)))

/-- A nonempty run of plain characters (no whitespace, no quote) builds
one token on top of the current one. -/
theorem shlexRun_plain (w : List Char)
    (hw : ∀ c ∈ w, ¬ isShWs c = true ∧ ¬ (c = '"' ∨ c = squote)) :
    ∀ (cur : Option (List Char)) (acc : List String), w ≠ [] →
      w.foldl shlexStep ⟨none, cur, acc⟩ =
        ⟨none, some (w.reverse ++ cur.getD []), acc⟩ := by
  induction w with
  | nil => intro _ _ h; exact absurd rfl h
  | cons c ws ih =>
    intro cur acc _
    simp only [List.foldl_cons]
    have hstep : shlexStep ⟨none, cur, acc⟩ c = ⟨none, some (c :: cur.getD []), acc⟩ := by
      simp only [shlexStep]
      rw [if_neg (hw c (List.mem_cons_self _ _)).1,
          if_neg (hw c (List.mem_cons_self _ _)).2]
    rw [hstep]
    by_cases hws : ws = []
    · subst hws
      simp
    · rw [ih (fun d hd => hw d (List.mem_cons_of_mem _ hd)) (some (c :: cur.getD [])) acc hws]
      simp [List.append_assoc]

/-- Appending ` -s marker` (marker nonempty and plain) to a quote-free
command line lexes as the original tokens followed by the flag/value
pair. -/
theorem shlexSplit_append_session (c1 : List Char) (m : String)
    (hq : ∀ c ∈ c1, ¬ (c = '"' ∨ c = squote))
    (hm : m.data ≠ [])
    (hmp : ∀ c ∈ m.data, ¬ isShWs c = true ∧ ¬ (c = '"' ∨ c = squote))
    (ts : List String) (hts : shlexSplit ⟨c1⟩ = some ts) :
    shlexSplit ⟨c1 ++ ' ' :: '-' :: 's' :: ' ' :: m.data⟩ = some (ts ++ ["-s", m]) := by
  have hq1 : (c1.foldl shlexStep ⟨none, none, []⟩).quote = none :=
    shlexRun_no_quote c1 hq _ rfl
  have hts' : ts = (flushTok (c1.foldl shlexStep ⟨none, none, []⟩)).reverse := by
    have hun : shlexSplit ⟨c1⟩ =
        (match (c1.foldl shlexStep ⟨none, none, []⟩).quote with
         | some _ => none
         | none => some (flushTok (c1.foldl shlexStep ⟨none, none, []⟩)).reverse) := rfl
    rw [hun, hq1] at hts
    exact (Option.some.inj hts).symm
  have hun2 : shlexSplit ⟨c1 ++ ' ' :: '-' :: 's' :: ' ' :: m.data⟩ =
      (match ((c1 ++ ' ' :: '-' :: 's' :: ' ' :: m.data).foldl shlexStep
          ⟨none, none, []⟩).quote with
       | some _ => none
       | none => some (flushTok ((c1 ++ ' ' :: '-' :: 's' :: ' ' :: m.data).foldl
          shlexStep ⟨none, none, []⟩)).reverse) := rfl
  rw [hun2, List.foldl_append]
  simp only [List.foldl_cons]
  have hsp : shlexStep (c1.foldl shlexStep ⟨none, none, []⟩) ' ' =
      ⟨none, none, flushTok (c1.foldl shlexStep ⟨none, none, []⟩)⟩ := by
    simp only [shlexStep, hq1]
    rw [if_pos (by decide)]
  rw [hsp]
  have h2 : shlexStep ⟨none, none, flushTok (c1.foldl shlexStep ⟨none, none, []⟩)⟩ '-' =
      ⟨none, some ['-'], flushTok (c1.foldl shlexStep ⟨none, none, []⟩)⟩ := by
    simp only [shlexStep]
    rw [if_neg (by decide), if_neg (by decide)]
    rfl
  rw [h2]
  have h3 : shlexStep ⟨none, some ['-'], flushTok (c1.foldl shlexStep ⟨none, none, []⟩)⟩ 's' =
      ⟨none, some ['s', '-'], flushTok (c1.foldl shlexStep ⟨none, none, []⟩)⟩ := by
    simp only [shlexStep]
    rw [if_neg (by decide), if_neg (by decide)]
    rfl
  rw [h3]
  have h4 : shlexStep ⟨none, some ['s', '-'],
      flushTok (c1.foldl shlexStep ⟨none, none, []⟩)⟩ ' ' =
      ⟨none, none, "-s" :: flushTok (c1.foldl shlexStep ⟨none, none, []⟩)⟩ := by
    simp only [shlexStep]
    rw [if_pos (by decide)]
    rfl
  rw [h4]
  rw [shlexRun_plain m.data hmp none ("-s" :: flushTok (c1.foldl shlexStep ⟨none, none, []⟩)) hm]
  rw [hts']
  simp [flushTok]

/-- The cleanup drops a recognised flag followed by an empty value,
together with that value. -/
theorem stripEmptyFlagVals_drop (f : String) (rest : List String)
    (hf : cliFlagNames.contains f = true) :
    stripEmptyFlagVals (f :: "" :: rest) = stripEmptyFlagVals rest := by
  simp only [stripEmptyFlagVals]
  rw [if_pos ⟨hf, by trivial⟩]

/-- The cleanup keeps any element that is not a recognised flag followed
by an empty value. -/
theorem stripEmptyFlagVals_keep (a b : String) (rest : List String)
    (h : ¬ (cliFlagNames.contains a = true ∧ b = "")) :
    stripEmptyFlagVals (a :: b :: rest) = a :: stripEmptyFlagVals (b :: rest) := by
  simp only [stripEmptyFlagVals]
  rw [if_neg h]

/-- A trailing `-s marker` pair with a nonempty marker survives the
cleanup untouched. -/
theorem stripEmptyFlagVals_trailing (m : String) (hm : m ≠ "") :
    ∀ (n : Nat) (xs : List String), xs.length ≤ n →
      stripEmptyFlagVals (xs ++ ["-s", m]) = stripEmptyFlagVals xs ++ ["-s", m] := by
  intro n
  induction n with
  | zero =>
    intro xs h
    have hnil : xs = [] := List.eq_nil_of_length_eq_zero (Nat.le_zero.mp h)
    subst hnil
    rw [List.nil_append]
    rw [stripEmptyFlagVals_keep "-s" m [] (fun hand => hm hand.2)]
    rfl
  | succ n ih =>
    intro xs h
    match xs with
    | [] =>
      rw [List.nil_append]
      rw [stripEmptyFlagVals_keep "-s" m [] (fun hand => hm hand.2)]
      rfl
    | [a] =>
      have hco : ([a] ++ ["-s", m]) = a :: "-s" :: [m] := rfl
      rw [hco]
      rw [stripEmptyFlagVals_keep a "-s" [m] (fun hand => absurd hand.2 (by decide))]
      rw [stripEmptyFlagVals_keep "-s" m [] (fun hand => hm hand.2)]
      rfl
    | a :: b :: rest =>
      have hco : ((a :: b :: rest) ++ ["-s", m]) = a :: b :: (rest ++ ["-s", m]) := rfl
      rw [hco]
      by_cases hc : cliFlagNames.contains a = true ∧ b = ""
      · have hl : stripEmptyFlagVals (a :: b :: (rest ++ ["-s", m])) =
            stripEmptyFlagVals (rest ++ ["-s", m]) := by
          simp only [stripEmptyFlagVals]
          rw [if_pos hc]
        have hr : stripEmptyFlagVals (a :: b :: rest) = stripEmptyFlagVals rest := by
          simp only [stripEmptyFlagVals]
          rw [if_pos hc]
        rw [hl, hr]
        apply ih
        simp only [List.length_cons] at h
        omega
      · rw [stripEmptyFlagVals_keep a b _ hc, stripEmptyFlagVals_keep a b rest hc]
        have hbr : b :: (rest ++ ["-s", m]) = (b :: rest) ++ ["-s", m] := rfl
        rw [hbr, ih (b :: rest) (by simp only [List.length_cons] at h ⊢; omega)]
        rfl

/-- Claim C9: when a persisted session marker exists and the command
template mentions no session placeholder or session flag, the
constructed argument list ends with the session flag `-s` followed by
the marker; and the cleanup loop removes every recognised
session/spec-dir/project-dir flag whose following value resolved to the
empty string, together with that value, keeping everything else. -/
theorem c9_session_flag_injection_and_empty_flag_strip
    (template modelOpt : String) (cwd specDir : Option String) (m : String)
    (hm : m ≠ "")
    (hmp : ∀ c ∈ m.data, ¬ isShWs c = true ∧ ¬ (c = '"' ∨ c = squote))
    (h1 : strIn "\x7bsessionId\x7d" template = false)
    (h2 : strIn "-s" template = false)
    (h3 : strIn "--session-id" template = false)
    (c1 : List Char) (ts : List String)
    (hfmt : pyFmt (phList (if modelOpt ≠ "" then modelOpt else defaultCliModel)
        (pyOrD cwd ".") (pyOrD specDir ".") m) template.data = some c1)
    (hq : ∀ c ∈ c1, ¬ (c = '"' ∨ c = squote))
    (hts : shlexSplit ⟨c1⟩ = some ts) :
    buildCliArgs template modelOpt cwd specDir (some m) =
      some (stripEmptyFlagVals ts ++ ["-s", m]) ∧
    (∀ (f : String) (rest : List String), cliFlagNames.contains f = true →
      stripEmptyFlagVals (f :: "" :: rest) = stripEmptyFlagVals rest) ∧
    (∀ (a b : String) (rest : List String),
      ¬ (cliFlagNames.contains a = true ∧ b = "") →
      stripEmptyFlagVals (a :: b :: rest) = a :: stripEmptyFlagVals (b :: rest)) := by
  refine ⟨?_, fun f rest hf => stripEmptyFlagVals_drop f rest hf,
    fun a b rest hk => stripEmptyFlagVals_keep a b rest hk⟩
  have hmd : m.data ≠ [] := fun hd => hm (String.ext (hd.trans rfl))
  have hdata : (template ++ " -s \x7bsessionId\x7d").data =
      template.data ++ ' ' :: '-' :: 's' :: ' ' :: phSessionId := by
    rw [String.data_append]
    congr 1
  have hPf : pyFormat (if modelOpt ≠ "" then modelOpt else defaultCliModel)
      (pyOrD cwd ".") (pyOrD specDir ".") m (template ++ " -s \x7bsessionId\x7d") =
      some ⟨c1 ++ ' ' :: '-' :: 's' :: ' ' :: m.data⟩ := by
    unfold pyFormat
    rw [hdata]
    have happ := pyFmt_append_space
      (phList (if modelOpt ≠ "" then modelOpt else defaultCliModel)
        (pyOrD cwd ".") (pyOrD specDir ".") m)
      (phList_nonempty _ _ _ _) (phList_no_space _ _ _ _)
      template.data.length template.data le_rfl ('-' :: 's' :: ' ' :: phSessionId)
    rw [happ, hfmt]
    have hsfx : pyFmt (phList (if modelOpt ≠ "" then modelOpt else defaultCliModel)
        (pyOrD cwd ".") (pyOrD specDir ".") m)
        (' ' :: '-' :: 's' :: ' ' :: phSessionId) =
        some (' ' :: '-' :: 's' :: ' ' :: m.data) :=
      pyFmt_session_suffix _ _ _ _ _ (by decide)
    rw [hsfx]
    rfl
  have hsession := shlexSplit_append_session c1 m hq hmd hmp ts hts
  have hcond : pyTruthy (some m) = true ∧
      ¬ strIn "\x7bsessionId\x7d" template = true ∧
      ¬ strIn "-s" template = true ∧ ¬ strIn "--session-id" template = true :=
    ⟨by simp [pyTruthy, hm], by simp [h1], by simp [h2], by simp [h3]⟩
  simp only [buildCliArgs]
  rw [if_pos hcond]
  have hgetD : (some m).getD "" = m := rfl
  rw [hgetD, hPf]
  show (match shlexSplit ⟨c1 ++ ' ' :: '-' :: 's' :: ' ' :: m.data⟩ with
    | none => none
    | some args => some (stripEmptyFlagVals args)) =
    some (stripEmptyFlagVals ts ++ ["-s", m])
  rw [hsession]
  show some (stripEmptyFlagVals (ts ++ ["-s", m])) = _
  rw [stripEmptyFlagVals_trailing m hm ts.length ts le_rfl]

set_option maxRecDepth 400000 in
/-- Witness for C9 at the default template and the marker `sess-42`. -/
theorem c9_session_flag_injection_witness :
    ("sess-42" : String) ≠ "" ∧
    strIn "\x7bsessionId\x7d" defaultCliTemplate = false ∧
    strIn "-s" defaultCliTemplate = false ∧
    strIn "--session-id" defaultCliTemplate = false ∧
    buildCliArgs defaultCliTemplate "m1" (some "/proj") (some "/spec") (some "sess-42") =
      some (stripEmptyFlagVals ["droid", "exec", "--model", "m1", "--output-format",
        "stream-json", "--input-format", "stream-json", "--auto", "low"] ++
        ["-s", "sess-42"]) ∧
    stripEmptyFlagVals ["-s", "", "run"] = stripEmptyFlagVals ["run"] ∧
    stripEmptyFlagVals ["--auto", "low", "x"] = "--auto" :: stripEmptyFlagVals ["low", "x"] := by
  have h := c9_session_flag_injection_and_empty_flag_strip defaultCliTemplate "m1"
    (some "/proj") (some "/spec") "sess-42"
    (by decide) (by decide) (by decide) (by decide) (by decide)
    ("droid exec --model m1 --output-format stream-json --input-format stream-json --auto low".data)
    ["droid", "exec", "--model", "m1", "--output-format", "stream-json",
     "--input-format", "stream-json", "--auto", "low"]
    (by decide) (by decide) (by decide)
  exact ⟨by decide, by decide, by decide, by decide, h.1,
    h.2.1 "-s" ["run"] (by decide), h.2.2 "--auto" "low" ["x"] (by decide)⟩
